import Mathlib

/-!
# Sandbox filter tables and the operand decoder (`pkg/sandbox/filter.go`)

A shallow embedding of the operand decoder `FilterInfo.GetArgument`, the alias
lookup `Aliases.Get`, the snapshot lookup `LibSandbox.GetFilter`, and the three table
walkers `GetFilterInfo`, `GetModifierInfo` and `GetOperationInfo`.

Conventions of the embedding:

* Go's unsigned machine integers (`uint8`, `uint16`, `uint32`, `uint64`) are
  natural numbers.  The operations used by the decoder (`>>`, `&`, comparison)
  never overflow; the address arithmetic of the table walkers is reduced modulo
  `2^64` where Go computes in `uint64`.  Go's `int` is `Int`.
* A Go `error` is the text of its message, and a function returning
  `(T, error)` returns `Except String T`.
* The `any` returned by `GetArgument` holds either a `string` or a `[]string`;
  it is the sum type `Operand`.
* `fmt.Sprintf` is modelled verb by verb: `%s` is the string itself, `%d` of an
  unsigned value is its decimal rendering, `%c` is the character with the given
  code point, `%04o` is the octal rendering left-padded with `0` to a
  minimum width of four, and `%#x` is the hexadecimal rendering after `0x`.
* `*Sandbox` and `*dyld.File` are declared outside this file's source; the
  methods called on them are the fields of the structures `Sandbox` and `DyldFile`.
* A loop `for { ... }` without a bound takes a `fuel`, the number of iterations it
  may run, and returns `none` when it has not returned within them.
-/

namespace Ipsw

/-! ## Constants -/

def ARG_BOOLEAN : Nat := 1
def ARG_OCTAL : Nat := 2
def ARG_OWNER : Nat := 3
def ARG_CTRL : Nat := 4
def ARG_STRING_OFFSET : Nat := 5
def ARG_RSS_OFFSET : Nat := 6
def ARG_NOT_SURE_YET : Nat := 7
def ARG_RSS_OFFSET_WITH_TYPE : Nat := 8
def ARG_NETWORK_OFFSET : Nat := 9

/-! ## Data model -/

/-- The Go struct `Alias`, with the embedded `alias` record flattened. -/
structure Alias where
  Name : String
  NameAddr : Nat
  ID : Nat
  Unknown : Nat
  Padding : Nat
  deriving DecidableEq, Repr

/-- The Go type `Aliases`, a slice of `Alias`. -/
abbrev Aliases := List Alias

/-- The Go struct `FilterInfo`, with the embedded `filterInfo` record flattened. -/
structure FilterInfo where
  ID : Int
  Name : String
  Category : String
  Aliases : Aliases
  NameAddr : Nat
  CategoryAddr : Nat
  DataType : Nat
  Namespace : Nat
  SideEffects : Nat
  Dependency : Nat
  AliasesAddr : Nat
  deriving DecidableEq, Repr

/-- The Go struct `ModifierInfo`, with the embedded `modifierInfo` record flattened. -/
structure ModifierInfo where
  ID : Int
  Name : String
  Aliases : List Alias
  NameAddr : Nat
  ActionMask : Nat
  ActionFlag : Nat
  Unknown1 : Nat
  Unknown2 : Nat
  AliasesAddr : Nat
  deriving DecidableEq, Repr

/-- The Go struct `OperationInfo`, with the embedded `operationInfo` record flattened
(the record's own `Unknown2` keeps its name, the outer field is `Unknown1`). -/
structure OperationInfo where
  ID : Int
  Name : String
  Modifiers : List String
  Categories : List String
  Unknown1 : Nat
  Version : Nat
  JumpTargetOperation : Nat
  Unknown2 : Nat
  CategoriesAddr : Nat
  ModifiersAddr : Nat
  UnknownAddr : Nat
  deriving DecidableEq, Repr

/-- The Go struct `LibSandbox`. -/
structure LibSandbox where
  Operations : List OperationInfo
  Filters : List FilterInfo
  Modifiers : List ModifierInfo
  deriving DecidableEq, Repr

/-- The methods of `*Sandbox` that `GetArgument` calls.  The type is declared outside
`filter.go`; each method takes a `uint32` offset and returns a value or an error. -/
structure Sandbox where
  GetStringAtOffset : Nat → Except String String
  GetRSStringAtOffset : Nat → Except String (List String)
  GetHostPortAtOffset : Nat → Except String (Nat × Nat)

/-- The dynamic value (`any`) returned by `GetArgument`: a `string` or a `[]string`. -/
inductive Operand where
  | str (s : String)
  | strs (ss : List String)
  deriving DecidableEq, Repr

/-! ## Formatting verbs of `fmt` -/

/-- The verb `%d` applied to an unsigned integer. -/
def fmtDec (n : Nat) : String := String.mk (Nat.toDigits 10 n)

/-- The verb `%04o`: octal digits, left-padded with `0` to a minimum width of four. -/
def fmtOctal04 (n : Nat) : String :=
  String.mk (List.replicate (4 - (Nat.toDigits 8 n).length) '0' ++ Nat.toDigits 8 n)

/-- The verb `%c`: the character whose code point is `n`. -/
def fmtChar (n : Nat) : String := String.singleton (Char.ofNat n)

/-- The function `strings.Join`. -/
def stringsJoin (ss : List String) (sep : String) : String := sep.intercalate ss

/-! ## Operations -/

/-- The method `Aliases.Get`: the first alias, in list order, whose `ID` is `id`. -/
def Aliases.Get : Aliases → Nat → Except String Alias
  | [], id => .error ("alias id not found: " ++ fmtDec id)
  | a :: rest, id => if a.ID = id then .ok a else Aliases.Get rest id

/-- The method `LibSandbox.GetFilter`.  The receiver is a pointer that the method only
reads; the snapshot after the call is returned next to the result. -/
def LibSandbox.GetFilter (db : LibSandbox) (id : Nat) : Except String FilterInfo × LibSandbox :=
  if h : id ≥ db.Filters.length then
    (.error ("invalid filter id: " ++ fmtDec id), db)
  else
    (.ok (db.Filters.get ⟨id, Nat.lt_of_not_ge h⟩), db)

/-- The method `FilterInfo.GetArgument`. -/
def FilterInfo.GetArgument (f : FilterInfo) (sb : Sandbox) (id : Nat) : Except String Operand :=
  if f.DataType = ARG_BOOLEAN then
    if id = 1 then .ok (.str "#t") else .ok (.str "#f")
  else if f.DataType = ARG_OCTAL then
    .ok (.str ("#o" ++ fmtOctal04 id))
  else if f.DataType = ARG_CTRL then
    match Aliases.Get f.Aliases id with
    | .error _ => .ok (.str ("_IO \"" ++ fmtChar (id >>> 8) ++ "\" " ++ fmtDec (id &&& 0xff)))
    | .ok a => .ok (.str a.Name)
  else if f.DataType = ARG_OWNER then
    match Aliases.Get f.Aliases id with
    | .error err => .error err
    | .ok a => .ok (.str a.Name)
  else if f.DataType = ARG_STRING_OFFSET then
    match sb.GetStringAtOffset id with
    | .error err => .error err
    | .ok s => .ok (.str ("\"" ++ s ++ "\""))
  else if f.DataType = ARG_RSS_OFFSET ∨ f.DataType = ARG_NOT_SURE_YET then
    match sb.GetRSStringAtOffset id with
    | .error err => .error err
    | .ok ss => .ok (.str (stringsJoin ss " "))
  else if f.DataType = ARG_RSS_OFFSET_WITH_TYPE then
    match sb.GetRSStringAtOffset id with
    | .error err => .error err
    | .ok ss => .ok (.strs ["literal", stringsJoin ss " "])
  else if f.DataType = ARG_NETWORK_OFFSET then
    match sb.GetHostPortAtOffset id with
    | .error err => .error err
    | .ok (host, port) =>
      let hostStr := if host > 0x100 then "localhost" else "*"
      let host := if host > 0x100 then host &&& 0xff else host
      match Aliases.Get f.Aliases host with
      | .error err => .error err
      | .ok a =>
        let portStr := if port ≠ 0 then fmtDec port else "*"
        .ok (.str (a.Name ++ " \"" ++ hostStr ++ ":" ++ portStr ++ "\""))
  else
    .error ("unsupported filter category: " ++ f.Category)

/-! ## Reading octal text back -/

/-- The number denoted by a sequence of octal digit characters, most significant first. -/
def octalValue (cs : List Char) : Nat :=
  cs.foldl (fun acc c => acc * 8 + (c.toNat - '0'.toNat)) 0

/-- An octal digit character, `0` to `7`. -/
def isOctalDigit (c : Char) : Bool := '0'.toNat ≤ c.toNat && c.toNat ≤ '7'.toNat

/-! ## Sample data used to exercise the theorems -/

/-- An alias with the given name and identifier, other fields zero. -/
def mkAlias (name : String) (id : Nat) : Alias :=
  { Name := name, NameAddr := 0, ID := id, Unknown := 0, Padding := 0 }

/-- A filter with the given category, data type and aliases, other fields zero. -/
def mkFilter (category : String) (dataType : Nat) (aliases : Aliases) : FilterInfo :=
  { ID := 0, Name := "", Category := category, Aliases := aliases, NameAddr := 0,
    CategoryAddr := 0, DataType := dataType, Namespace := 0, SideEffects := 0,
    Dependency := 0, AliasesAddr := 0 }

/-- A collaborator whose every lookup fails. -/
def sbNone : Sandbox :=
  { GetStringAtOffset := fun _ => .error "no string",
    GetRSStringAtOffset := fun _ => .error "no pattern",
    GetHostPortAtOffset := fun _ => .error "no host" }

/-- A collaborator with fixed answers: a pattern of two tokens and a given host/port pair. -/
def sbFixed (host port : Nat) : Sandbox :=
  { GetStringAtOffset := fun _ => .ok "s",
    GetRSStringAtOffset := fun _ => .ok ["a", "b"],
    GetHostPortAtOffset := fun _ => .ok (host, port) }

/-! ## The image collaborator (`dyld.File`)

The cache image is declared outside `filter.go`.  The methods the table walkers call on
it are the fields below.  A `types.UUID` is a natural number naming a sub-file; a
`[]byte` is a list of natural numbers below 256; the `int64` offset handed to
`ReadBytesForUUID` is the `uint64` offset that `GetOffset` returned.  A read may return a
buffer of any length: nothing is assumed of it unless a theorem says so. -/

/-- The value `2^64`, the modulus of `uint64` arithmetic. -/
def U64 : Nat := 2 ^ 64

/-- The method `FindSymbolAddress` of the Mach-O file of an image. -/
structure MachoFile where
  FindSymbolAddress : String → Except String Nat

/-- The method `GetMacho` of an image of the cache. -/
structure CacheImage where
  GetMacho : Except String MachoFile

/-- The methods of `*dyld.File` that the table walkers call; `SlidePointer` is
`d.SlideInfo.SlidePointer`. -/
structure DyldFile where
  Image : String → Except String CacheImage
  GetOffset : Nat → Except String (Nat × Nat)
  ReadBytesForUUID : Nat → Nat → Nat → Except String (List Nat)
  GetCString : Nat → Except String String
  SlidePointer : Nat → Nat
  ReadPointerAtAddress : Nat → Except String Nat

/-! ## Reading fixed-layout records (`encoding/binary`) -/

/-- The verb `%#x` applied to an unsigned integer. -/
def fmtHex (n : Nat) : String := "0x" ++ String.mk (Nat.toDigits 16 n)

/-- The little-endian value of a sequence of bytes. -/
def leUint (bs : List Nat) : Nat := bs.foldr (fun b acc => b + 256 * acc) 0

/-- The little-endian field of `width` bytes at offset `off` of a record. -/
def fieldAt (bs : List Nat) (off width : Nat) : Nat := leUint ((bs.drop off).take width)

/-- The function `io.ReadFull` on a `bytes.Reader` holding `r`, as `binary.Read` calls it
for a value of `size` bytes: the bytes read and the bytes left, or `EOF` when nothing is
left, or `unexpected EOF` when fewer than `size` bytes are left. -/
def readFull (r : List Nat) (size : Nat) : Except String (List Nat × List Nat) :=
  if size = 0 then .ok ([], r)
  else if r.length = 0 then .error "EOF"
  else if r.length < size then .error "unexpected EOF"
  else .ok (r.take size, r.drop size)

/-- The size `binary.Size(filterInfo{})`. -/
def sizeOfFilterInfo : Nat := 32

/-- The size `binary.Size(alias{})`. -/
def sizeOfAlias : Nat := 16

/-- The size `binary.Size(modifierInfo{})`. -/
def sizeOfModifierInfo : Nat := 32

/-- The size `binary.Size(operationInfo{})`. -/
def sizeOfOperationInfo : Nat := 40

/-- The value `var a Alias` after `binary.Read` has filled its `alias` record from `bs`. -/
def decodeAlias (bs : List Nat) : Alias :=
  { Name := "", NameAddr := fieldAt bs 0 8, ID := fieldAt bs 8 2, Unknown := fieldAt bs 10 2,
    Padding := fieldAt bs 12 4 }

/-- The value `FilterInfo{ID: i}` after `binary.Read` has filled its `filterInfo` record
from `bs`. -/
def decodeFilterInfo (i : Nat) (bs : List Nat) : FilterInfo :=
  { ID := (i : Int), Name := "", Category := "", Aliases := [],
    NameAddr := fieldAt bs 0 8, CategoryAddr := fieldAt bs 8 8, DataType := fieldAt bs 16 1,
    Namespace := fieldAt bs 17 1, SideEffects := fieldAt bs 18 2, Dependency := fieldAt bs 20 4,
    AliasesAddr := fieldAt bs 24 8 }

/-- The value `ModifierInfo{ID: i}` after `binary.Read` has filled its `modifierInfo`
record from `bs`. -/
def decodeModifierInfo (i : Nat) (bs : List Nat) : ModifierInfo :=
  { ID := (i : Int), Name := "", Aliases := [],
    NameAddr := fieldAt bs 0 8, ActionMask := fieldAt bs 8 4, ActionFlag := fieldAt bs 12 4,
    Unknown1 := fieldAt bs 16 4, Unknown2 := fieldAt bs 20 4, AliasesAddr := fieldAt bs 24 8 }

/-- The Go struct `operationInfo`, the raw record of the operation table. -/
structure operationInfo where
  Version : Nat
  JumpTargetOperation : Nat
  Unknown2 : Nat
  CategoriesAddr : Nat
  ModifiersAddr : Nat
  UnknownAddr : Nat
  deriving DecidableEq, Repr

/-- One `operationInfo` record as `binary.Read` decodes it from `bs`. -/
def decodeOperationInfo (bs : List Nat) : operationInfo :=
  { Version := fieldAt bs 0 4, JumpTargetOperation := fieldAt bs 4 4, Unknown2 := fieldAt bs 8 8,
    CategoriesAddr := fieldAt bs 16 8, ModifiersAddr := fieldAt bs 24 8,
    UnknownAddr := fieldAt bs 32 8 }

/-! ## The filter table (`GetFilterInfo`)

The Go loops `for { ... }` that chase a chain have no bound.  Each is a function of a
`fuel`, the number of iterations it may run: `none` means that the loop has not returned
within `fuel` iterations, `some r` that it returned `r`. -/

/-- The constant `NUM_INFO_ENTRIES`. -/
def NUM_INFO_ENTRIES : Nat := 0x55

/-- The alias loop of `GetFilterInfo` (`// parse aliases`), entered with `fi.AliasesAddr`,
the running offset `next` and the aliases appended so far. -/
def filterAliasLoop (d : DyldFile) (aliasesAddr : Nat) :
    Nat → Nat → Aliases → Option (Except String Aliases)
  | 0, _, _ => none
  | fuel + 1, next, aliases =>
    match d.GetOffset ((d.SlidePointer aliasesAddr + next) % U64) with
    | .error err =>
      some (.error ("failed to get alias offset for addr "
        ++ fmtHex ((d.SlidePointer aliasesAddr + next) % U64) ++ ": " ++ err))
    | .ok (uuid, off) =>
      match d.ReadBytesForUUID uuid off sizeOfAlias with
      | .error err => some (.error ("failed to read alias data: " ++ err))
      | .ok dat =>
        match readFull dat sizeOfAlias with
        | .error err => some (.error ("failed to read alias: " ++ err))
        | .ok (bs, _) =>
          if (decodeAlias bs).NameAddr = 0 then some (.ok aliases)
          else
            match d.GetCString (d.SlidePointer (decodeAlias bs).NameAddr) with
            | .error err => some (.error ("failed to read alias name: " ++ err))
            | .ok name =>
              filterAliasLoop d aliasesAddr fuel ((next + sizeOfAlias) % U64)
                (aliases ++ [{ decodeAlias bs with Name := name }])

/-- The body of the record loop of `GetFilterInfo` at index `i`, the reader holding `r`:
the record built and the bytes left in the reader. -/
def filterItem (d : DyldFile) (fuel i : Nat) (r : List Nat) :
    Option (Except String (FilterInfo × List Nat)) :=
  match readFull r sizeOfFilterInfo with
  | .error err => some (.error ("failed to read _filter_info item " ++ fmtDec i ++ ": " ++ err))
  | .ok (bs, rest) =>
    match (if (decodeFilterInfo i bs).NameAddr ≠ 0
        then d.GetCString (d.SlidePointer (decodeFilterInfo i bs).NameAddr) else .ok "") with
    | .error err =>
      some (.error ("failed to read _filter_info item " ++ fmtDec i ++ " name: " ++ err))
    | .ok name =>
      match (if (decodeFilterInfo i bs).CategoryAddr ≠ 0
          then d.GetCString (d.SlidePointer (decodeFilterInfo i bs).CategoryAddr)
          else .ok "") with
      | .error err =>
        some (.error ("failed to read _filter_info item " ++ fmtDec i ++ " category: " ++ err))
      | .ok category =>
        match (if (decodeFilterInfo i bs).AliasesAddr ≠ 0
            then filterAliasLoop d (decodeFilterInfo i bs).AliasesAddr fuel 0 []
            else some (.ok [])) with
        | none => none
        | some (.error err) => some (.error err)
        | some (.ok aliases) =>
          some (.ok ({ decodeFilterInfo i bs with
            Name := name, Category := category, Aliases := aliases }, rest))

/-- The record loop `for i := 0; i <= NUM_INFO_ENTRIES; i++` of `GetFilterInfo`;
`remaining` is the number of iterations left, `NUM_INFO_ENTRIES + 1 - i`. -/
def filterLoop (d : DyldFile) (fuel : Nat) :
    Nat → Nat → List Nat → List FilterInfo → Option (Except String (List FilterInfo))
  | 0, _, _, finfos => some (.ok finfos)
  | remaining + 1, i, r, finfos =>
    match filterItem d fuel i r with
    | none => none
    | some (.error err) => some (.error err)
    | some (.ok (fi, rest)) => filterLoop d fuel remaining (i + 1) rest (finfos ++ [fi])

/-- The function `GetFilterInfo`. -/
def GetFilterInfo (d : DyldFile) (fuel : Nat) : Option (Except String (List FilterInfo)) :=
  match d.Image "libsandbox.1.dylib" with
  | .error err => some (.error ("failed to get libsandbox.1.dylib image: " ++ err))
  | .ok libsand =>
    match libsand.GetMacho with
    | .error err => some (.error ("failed to get libsandbox.1.dylib macho: " ++ err))
    | .ok m =>
      match m.FindSymbolAddress "_filter_info" with
      | .error err => some (.error ("failed to find _filter_info symbol: " ++ err))
      | .ok filterInfoAddr =>
        match d.GetOffset filterInfoAddr with
        | .error err => some (.error ("failed to get _filter_info offset: " ++ err))
        | .ok (uuid, filterInfoOff) =>
          match d.ReadBytesForUUID uuid filterInfoOff
              ((NUM_INFO_ENTRIES + 1) * sizeOfFilterInfo) with
          | .error err => some (.error ("failed to read _filter_info data: " ++ err))
          | .ok dat => filterLoop d fuel (NUM_INFO_ENTRIES + 1) 0 dat []

/-! ## The modifier table (`GetModifierInfo`) -/

/-- The constant `SB_MODIFIER_COUNT`. -/
def SB_MODIFIER_COUNT : Nat := 0x15

/-- The alias loop of `GetModifierInfo` (`// parse aliases`), entered with
`mi.AliasesAddr`, the running offset `next` and the aliases appended so far. -/
def modifierAliasLoop (d : DyldFile) (aliasesAddr : Nat) :
    Nat → Nat → List Alias → Option (Except String (List Alias))
  | 0, _, _ => none
  | fuel + 1, next, aliases =>
    match d.GetOffset ((d.SlidePointer aliasesAddr + next) % U64) with
    | .error err =>
      some (.error ("failed to get alias offset for addr "
        ++ fmtHex ((d.SlidePointer aliasesAddr + next) % U64) ++ ": " ++ err))
    | .ok (uuid, off) =>
      match d.ReadBytesForUUID uuid off sizeOfAlias with
      | .error err => some (.error ("failed to read alias data: " ++ err))
      | .ok dat =>
        match readFull dat sizeOfAlias with
        | .error err => some (.error ("failed to read alias: " ++ err))
        | .ok (bs, _) =>
          if (decodeAlias bs).NameAddr = 0 then some (.ok aliases)
          else
            match d.GetCString (d.SlidePointer (decodeAlias bs).NameAddr) with
            | .error err => some (.error ("failed to read alias name: " ++ err))
            | .ok name =>
              modifierAliasLoop d aliasesAddr fuel ((next + sizeOfAlias) % U64)
                (aliases ++ [{ decodeAlias bs with Name := name }])

/-- The body of the record loop of `GetModifierInfo` at index `i`, the reader holding
`r`: the record built and the bytes left in the reader. -/
def modifierItem (d : DyldFile) (fuel i : Nat) (r : List Nat) :
    Option (Except String (ModifierInfo × List Nat)) :=
  match readFull r sizeOfModifierInfo with
  | .error err =>
    some (.error ("failed to read _modifier_info item " ++ fmtDec i ++ ": " ++ err))
  | .ok (bs, rest) =>
    match (if (decodeModifierInfo i bs).NameAddr ≠ 0
        then d.GetCString (d.SlidePointer (decodeModifierInfo i bs).NameAddr)
        else .ok "") with
    | .error err =>
      some (.error ("failed to read _modifier_info item " ++ fmtDec i ++ " name: " ++ err))
    | .ok name =>
      match (if (decodeModifierInfo i bs).AliasesAddr ≠ 0
          then modifierAliasLoop d (decodeModifierInfo i bs).AliasesAddr fuel 0 []
          else some (.ok [])) with
      | none => none
      | some (.error err) => some (.error err)
      | some (.ok aliases) =>
        some (.ok ({ decodeModifierInfo i bs with Name := name, Aliases := aliases }, rest))

/-- The record loop `for i := 0; i < SB_MODIFIER_COUNT; i++` of `GetModifierInfo`;
`remaining` is the number of iterations left, `SB_MODIFIER_COUNT - i`. -/
def modifierLoop (d : DyldFile) (fuel : Nat) :
    Nat → Nat → List Nat → List ModifierInfo → Option (Except String (List ModifierInfo))
  | 0, _, _, minfos => some (.ok minfos)
  | remaining + 1, i, r, minfos =>
    match modifierItem d fuel i r with
    | none => none
    | some (.error err) => some (.error err)
    | some (.ok (mi, rest)) => modifierLoop d fuel remaining (i + 1) rest (minfos ++ [mi])

/-- The function `GetModifierInfo`. -/
def GetModifierInfo (d : DyldFile) (fuel : Nat) : Option (Except String (List ModifierInfo)) :=
  match d.Image "libsandbox.1.dylib" with
  | .error err => some (.error ("failed to find libsandbox.1.dylib: " ++ err))
  | .ok libsand =>
    match libsand.GetMacho with
    | .error err => some (.error ("failed to get libsandbox.1.dylib macho: " ++ err))
    | .ok m =>
      match m.FindSymbolAddress "_modifier_info" with
      | .error err => some (.error ("failed to find _modifier_info symbol: " ++ err))
      | .ok modifierInfoAddr =>
        match d.GetOffset modifierInfoAddr with
        | .error err => some (.error ("failed to get _modifier_info offset: " ++ err))
        | .ok (uuid, modifierInfoOff) =>
          match d.ReadBytesForUUID uuid modifierInfoOff
              (SB_MODIFIER_COUNT * sizeOfModifierInfo) with
          | .error err => some (.error ("failed to read _modifier_info data: " ++ err))
          | .ok dat => modifierLoop d fuel SB_MODIFIER_COUNT 0 dat []

/-! ## The operation table (`GetOperationInfo`) -/

/-- The loop `for _, addr := range onAddrs` of `GetOperationInfo`, with the names
appended so far. -/
def namesLoop (d : DyldFile) : List Nat → List String → Except String (List String)
  | [], opNames => .ok opNames
  | addr :: rest, opNames =>
    match d.GetCString (d.SlidePointer addr) with
    | .error err => .error ("failed to read operation name: " ++ err)
    | .ok name => namesLoop d rest (opNames ++ [name])

/-- The two pointer loops of `GetOperationInfo` (`// parse catergories` and
`// parse modifiers`), which differ in the word `what` of their error texts only:
entered with the array address of the record, the running offset `next` and the strings
appended so far. -/
def sentinelLoop (d : DyldFile) (what : String) (arrayAddr : Nat) :
    Nat → Nat → List String → Option (Except String (List String))
  | 0, _, _ => none
  | fuel + 1, next, strs =>
    match d.ReadPointerAtAddress ((d.SlidePointer arrayAddr + next) % U64) with
    | .error err =>
      some (.error ("failed to read " ++ what ++ " addr at "
        ++ fmtHex ((d.SlidePointer arrayAddr + next) % U64) ++ ": " ++ err))
    | .ok addr =>
      if addr = 0 then some (.ok strs)
      else
        match d.GetCString (d.SlidePointer addr) with
        | .error err =>
          some (.error ("failed to read " ++ what ++ " at " ++ fmtHex addr ++ ": " ++ err))
        | .ok s => sentinelLoop d what arrayAddr fuel ((next + 8) % U64) (strs ++ [s])

/-- The block `if oi.UnknownAddr != 0` of `GetOperationInfo`: the value of
`oinfo.Unknown1` after it, `count` being `len(opNames)`. -/
def readUnknown1 (d : DyldFile) (count : Nat) (unknownAddr : Nat) : Except String Nat :=
  if unknownAddr ≠ 0 then
    match d.GetOffset (d.SlidePointer unknownAddr) with
    | .error err => .error ("failed to get _operation_info unknown struct offset: " ++ err)
    | .ok (uuid, off) =>
      match d.ReadBytesForUUID uuid off (count * 4) with
      | .error err => .error ("failed to read _operation_info unknown struct data: " ++ err)
      | .ok dat =>
        match readFull dat 4 with
        | .error err => .error ("failed to read _operation_info unknown uint32 data: " ++ err)
        | .ok (bs, _) => .ok (leUint bs)
  else .ok 0

/-- The body of the loop `for idx, oi := range oinfos` of `GetOperationInfo`. -/
def operationItem (d : DyldFile) (fuel : Nat) (opNames : List String) (idx : Nat)
    (oi : operationInfo) : Option (Except String OperationInfo) :=
  match (if oi.CategoriesAddr ≠ 0 then sentinelLoop d "category" oi.CategoriesAddr fuel 0 []
      else some (.ok [])) with
  | none => none
  | some (.error err) => some (.error err)
  | some (.ok cats) =>
    match (if oi.ModifiersAddr ≠ 0 then sentinelLoop d "modifier" oi.ModifiersAddr fuel 0 []
        else some (.ok [])) with
    | none => none
    | some (.error err) => some (.error err)
    | some (.ok mods) =>
      match readUnknown1 d opNames.length oi.UnknownAddr with
      | .error err => some (.error err)
      | .ok unknown1 =>
        some (.ok
          { ID := (idx : Int), Name := opNames.getD idx "", Modifiers := mods,
            Categories := cats, Unknown1 := unknown1, Version := oi.Version,
            JumpTargetOperation := oi.JumpTargetOperation, Unknown2 := oi.Unknown2,
            CategoriesAddr := oi.CategoriesAddr, ModifiersAddr := oi.ModifiersAddr,
            UnknownAddr := oi.UnknownAddr })

/-- The loop `for idx, oi := range oinfos` of `GetOperationInfo`, at index `idx` with the
records still to visit and the operations appended so far. -/
def operationLoop (d : DyldFile) (fuel : Nat) (opNames : List String) :
    List operationInfo → Nat → List OperationInfo → Option (Except String (List OperationInfo))
  | [], _, opInfos => some (.ok opInfos)
  | oi :: rest, idx, opInfos =>
    match operationItem d fuel opNames idx oi with
    | none => none
    | some (.error err) => some (.error err)
    | some (.ok oinfo) => operationLoop d fuel opNames rest (idx + 1) (opInfos ++ [oinfo])

/-- The function `GetOperationInfo`.  The length of the names array is the `uint64`
difference of the two symbol addresses; the number of names is the number of whole
pointers in the buffer the read returned. -/
def GetOperationInfo (d : DyldFile) (fuel : Nat) : Option (Except String (List OperationInfo)) :=
  match d.Image "libsandbox.1.dylib" with
  | .error err => some (.error ("failed to get image libsandbox.1.dylib: " ++ err))
  | .ok libsand =>
    match libsand.GetMacho with
    | .error err => some (.error ("failed to get macho for libsandbox.1.dylib: " ++ err))
    | .ok m =>
      match m.FindSymbolAddress "_operation_names" with
      | .error err => some (.error ("failed to find _operation_names symbol: " ++ err))
      | .ok operationNamesAddr =>
        match d.GetOffset operationNamesAddr with
        | .error err => some (.error ("failed to get _operation_names offset: " ++ err))
        | .ok (uuid, operationNamesOff) =>
          match m.FindSymbolAddress "_operation_info" with
          | .error err => some (.error ("failed to find _operation_info symbol: " ++ err))
          | .ok operationInfoAddr =>
            match d.ReadBytesForUUID uuid operationNamesOff
                ((operationInfoAddr + U64 - operationNamesAddr) % U64) with
            | .error err => some (.error ("failed to read _operation_names data: " ++ err))
            | .ok dat =>
              match readFull dat (dat.length / 8 * 8) with
              | .error err => some (.error ("failed to read _operation_names addrs: " ++ err))
              | .ok (bs, _) =>
                match namesLoop d
                    ((List.range (dat.length / 8)).map (fun k => fieldAt bs (8 * k) 8)) [] with
                | .error err => some (.error err)
                | .ok opNames =>
                  match d.GetOffset operationInfoAddr with
                  | .error err => some (.error ("failed to get _operation_info offset: " ++ err))
                  | .ok (uuid2, operationInfoOff) =>
                    match d.ReadBytesForUUID uuid2 operationInfoOff
                        (opNames.length * sizeOfOperationInfo) with
                    | .error err => some (.error ("failed to read _operation_info data: " ++ err))
                    | .ok dat2 =>
                      match readFull dat2 (opNames.length * sizeOfOperationInfo) with
                      | .error err =>
                        some (.error ("failed to read _operation_info(s): " ++ err))
                      | .ok (bs2, _) =>
                        operationLoop d fuel opNames
                          ((List.range opNames.length).map (fun k =>
                            decodeOperationInfo (bs2.drop (sizeOfOperationInfo * k)))) 0 []

/-! ## What the chains hold

The records and slots that the chain loops visit, stated apart from the loops. -/

/-- The address at which the alias loop reads the record of index `i` of the chain whose
stored pointer is `aliasesAddr`: `slide(aliasesAddr) + 16 * i` in `uint64` arithmetic. -/
def aliasSlot (d : DyldFile) (aliasesAddr i : Nat) : Nat :=
  (d.SlidePointer aliasesAddr + sizeOfAlias * i % U64) % U64

/-- The alias record stored at an address: the address is resolved, sixteen bytes are
read there and decoded; `none` when one of these steps fails. -/
def aliasRecordAt (d : DyldFile) (addr : Nat) : Option Alias :=
  match d.GetOffset addr with
  | .error _ => none
  | .ok (uuid, off) =>
    match d.ReadBytesForUUID uuid off sizeOfAlias with
    | .error _ => none
    | .ok dat =>
      match readFull dat sizeOfAlias with
      | .error _ => none
      | .ok (bs, _) => some (decodeAlias bs)

/-- The alias of index `i` of a chain: its record has a non-zero name pointer and its
name is the C string at the slid name pointer; `none` when the record is unreadable, is
the terminator, or has an unreadable name. -/
def aliasAt (d : DyldFile) (aliasesAddr i : Nat) : Option Alias :=
  match aliasRecordAt d (aliasSlot d aliasesAddr i) with
  | none => none
  | some raw =>
    if raw.NameAddr = 0 then none
    else
      match d.GetCString (d.SlidePointer raw.NameAddr) with
      | .error _ => none
      | .ok name => some { raw with Name := name }

/-- The record of index `i` of a chain is readable and its name pointer is zero. -/
def terminatorAt (d : DyldFile) (aliasesAddr i : Nat) : Bool :=
  match aliasRecordAt d (aliasSlot d aliasesAddr i) with
  | none => false
  | some raw => decide (raw.NameAddr = 0)

/-- The address at which a pointer loop reads the slot of index `i` of the array whose
stored pointer is `arrayAddr`: `slide(arrayAddr) + 8 * i` in `uint64` arithmetic. -/
def pointerSlot (d : DyldFile) (arrayAddr i : Nat) : Nat :=
  (d.SlidePointer arrayAddr + 8 * i % U64) % U64

/-- The string of index `i` of a pointer array: the slot holds a non-zero pointer and the
string is the C string at the slid pointer; `none` when the slot is unreadable, is zero,
or points to an unreadable string. -/
def stringAt (d : DyldFile) (arrayAddr i : Nat) : Option String :=
  match d.ReadPointerAtAddress (pointerSlot d arrayAddr i) with
  | .error _ => none
  | .ok addr =>
    if addr = 0 then none
    else
      match d.GetCString (d.SlidePointer addr) with
      | .error _ => none
      | .ok s => some s

/-- The slot of index `i` of a pointer array is readable and holds zero. -/
def zeroSlotAt (d : DyldFile) (arrayAddr i : Nat) : Bool :=
  match d.ReadPointerAtAddress (pointerSlot d arrayAddr i) with
  | .error _ => false
  | .ok addr => decide (addr = 0)

/-- A loop `G fuel i acc` that walks a chain from index `i`: it appends `item i` and goes
on while there is one, returns what it has at a terminator, and fails otherwise. -/
structure ChainLoop {β : Type} (G : Nat → Nat → List β → Option (Except String (List β)))
    (item : Nat → Option β) (term : Nat → Bool) : Prop where
  zero : ∀ i acc, G 0 i acc = none
  step : ∀ fuel i acc b, item i = some b → G (fuel + 1) i acc = G fuel (i + 1) (acc ++ [b])
  stop : ∀ fuel i acc, term i = true → G (fuel + 1) i acc = some (.ok acc)
  fail : ∀ fuel i acc, item i = none → term i = false →
    ∃ e, G (fuel + 1) i acc = some (.error e)
  excl : ∀ i, term i = true → item i = none

/-- The value a pipeline returned, when it returned one without error. -/
def okValue {α : Type} : Option (Except String α) → Option α
  | some (.ok x) => some x
  | _ => none

/-! ## A sample image

A small image on which the three pipelines succeed.  Virtual addresses start at
`0x10000`; the slide adds `0x10000` to a stored pointer; the file offset of an address is
the address less `0x10000`; a read past the stored bytes returns zeros. -/

/-- The eight little-endian bytes of a pointer. -/
def le64 (v : Nat) : List Nat := (List.range 8).map (fun k => v / 256 ^ k % 256)

/-- The stored bytes of the sample image, by file offset. -/
def sampleSegments : List (Nat × List Nat) :=
  [ (0x1000, le64 0x100 ++ le64 0x108 ++ [3, 0, 0, 0, 0, 0, 0, 0] ++ le64 0x5000
      ++ List.replicate 24 0 ++ le64 0x5040),
    (0x3000, le64 0x120 ++ [1, 0, 0, 0] ++ [2, 0, 0, 0] ++ List.replicate 8 0 ++ le64 0x5000),
    (0x4000, le64 0x130 ++ le64 0x138),
    (0x4010, [1, 0, 0, 0, 0, 0, 0, 0] ++ List.replicate 8 0 ++ le64 0x6000 ++ le64 0
      ++ le64 0x7000),
    (0x5000, le64 0x110 ++ [7, 0, 0, 0, 0, 0, 0, 0] ++ le64 0x118 ++ [9, 0, 0, 0, 0, 0, 0, 0]),
    (0x6000, le64 0x140 ++ le64 0),
    (0x7000, [5, 0, 0, 0, 6, 0, 0, 0]) ]

/-- The strings of the sample image, by address. -/
def sampleStrings : List (Nat × String) :=
  [ (0x10000, "base"), (0x10100, "uid"), (0x10108, "owner"), (0x10110, "root"), (0x10118, "wheel"),
    (0x10120, "report"), (0x10130, "default"), (0x10138, "file-read"), (0x10140, "cat") ]

/-- The `n` bytes stored at file offset `off` of the sample image. -/
def sampleRead (off n : Nat) : List Nat :=
  match sampleSegments.find? (fun s => decide (s.1 ≤ off ∧ off < s.1 + s.2.length)) with
  | some s => (s.2.drop (off - s.1)).take n
      ++ List.replicate (n - ((s.2.drop (off - s.1)).take n).length) 0
  | none => List.replicate n 0

/-- The symbols of the sample image. -/
def sampleMacho : MachoFile :=
  { FindSymbolAddress := fun name =>
      if name = "_filter_info" then .ok 0x11000
      else if name = "_modifier_info" then .ok 0x13000
      else if name = "_operation_names" then .ok 0x14000
      else if name = "_operation_info" then .ok 0x14010
      else .error "symbol not found" }

/-- The sample image. -/
def sampleFile : DyldFile :=
  { Image := fun name =>
      if name = "libsandbox.1.dylib" then .ok { GetMacho := .ok sampleMacho }
      else .error "image not found",
    GetOffset := fun addr => if addr ≥ 0x10000 then .ok (7, addr - 0x10000)
      else .error "unmapped",
    ReadBytesForUUID := fun _ off n => .ok (sampleRead off n),
    GetCString := fun addr =>
      match sampleStrings.find? (fun s => decide (s.1 = addr)) with
      | some s => .ok s.2
      | none => .error "no string",
    SlidePointer := fun addr => addr + 0x10000,
    ReadPointerAtAddress := fun addr =>
      if addr ≥ 0x10000 then .ok (leUint (sampleRead (addr - 0x10000) 8))
      else .error "unmapped" }

/-- The sample image with a read of the operation-names array that returns eight bytes
only. -/
def shortNamesFile : DyldFile :=
  { sampleFile with
    ReadBytesForUUID := fun _ off n =>
      if off = 0x4000 then .ok ((sampleRead off n).take 8) else .ok (sampleRead off n) }

/-- An image in which every address is mapped and every byte is 1, so that no record or
slot is ever a zero terminator and every stored pointer is `0x0101010101010101`.  Its
tables start at `0x1000`, and the operation-names array is one pointer long. -/
def onesFile : DyldFile :=
  { Image := fun _ =>
      .ok { GetMacho := .ok { FindSymbolAddress := fun name =>
        if name = "_operation_info" then .ok 0x1008 else .ok 0x1000 } },
    GetOffset := fun addr => .ok (0, addr),
    ReadBytesForUUID := fun _ _ n => .ok (List.replicate n 1),
    GetCString := fun _ => .ok "x",
    SlidePointer := fun addr => addr,
    ReadPointerAtAddress := fun _ => .ok 0x0101010101010101 }

/-- The sample image with a zero in the first slot of the operation-names array. -/
def zeroSlotFile : DyldFile :=
  { sampleFile with
    ReadBytesForUUID := fun _ off n =>
      if off = 0x4000 then .ok ((le64 0 ++ le64 0x138).take n) else .ok (sampleRead off n) }

/-- The alias chain stored at `0x5000` of the sample image. -/
def sampleAliases : List Alias :=
  [ { Name := "root", NameAddr := 0x110, ID := 7, Unknown := 0, Padding := 0 },
    { Name := "wheel", NameAddr := 0x118, ID := 9, Unknown := 0, Padding := 0 } ]

/-- The first filter of the sample image, with two aliases. -/
def sampleFilter0 : FilterInfo :=
  { ID := 0, Name := "uid", Category := "owner", Aliases := sampleAliases, NameAddr := 0x100,
    CategoryAddr := 0x108, DataType := 3, Namespace := 0, SideEffects := 0, Dependency := 0,
    AliasesAddr := 0x5000 }

/-- The second filter of the sample image, whose alias pointer leads to a terminator. -/
def sampleFilter1 : FilterInfo :=
  { ID := 1, Name := "", Category := "", Aliases := [], NameAddr := 0, CategoryAddr := 0,
    DataType := 0, Namespace := 0, SideEffects := 0, Dependency := 0, AliasesAddr := 0x5040 }

/-- The filter table of the sample image. -/
def sampleFilters : List FilterInfo :=
  [sampleFilter0, sampleFilter1] ++ (List.range 84).map (fun k => decodeFilterInfo (k + 2) [])

/-- The modifier table of the sample image. -/
def sampleModifiers : List ModifierInfo :=
  [ { ID := 0, Name := "report", Aliases := sampleAliases, NameAddr := 0x120, ActionMask := 1,
      ActionFlag := 2, Unknown1 := 0, Unknown2 := 0, AliasesAddr := 0x5000 } ]
  ++ (List.range 20).map (fun k => decodeModifierInfo (k + 1) [])

/-- The first operation of the sample image. -/
def sampleOperation0 : OperationInfo :=
  { ID := 0, Name := "default", Modifiers := [], Categories := ["cat"], Unknown1 := 5,
    Version := 1, JumpTargetOperation := 0, Unknown2 := 0, CategoriesAddr := 0x6000,
    ModifiersAddr := 0, UnknownAddr := 0x7000 }

/-- The second operation of the sample image. -/
def sampleOperation1 : OperationInfo :=
  { ID := 1, Name := "file-read", Modifiers := [], Categories := [], Unknown1 := 0,
    Version := 0, JumpTargetOperation := 0, Unknown2 := 0, CategoriesAddr := 0,
    ModifiersAddr := 0, UnknownAddr := 0 }

/-- The first operation of the sample image when the first slot of the names array is
zero: its name is the string at the slid null pointer. -/
def sampleOperationBase : OperationInfo :=
  { sampleOperation0 with Name := "base" }

/-- The sample image with a read of the filter table that returns forty bytes only. -/
def shortFilterFile : DyldFile :=
  { sampleFile with
    ReadBytesForUUID := fun _ off n =>
      if off = 0x1000 then .ok ((sampleRead off n).take 40) else .ok (sampleRead off n) }

/-! ## Facts about `Aliases.Get` -/

theorem Aliases.Get_ok_split (l : Aliases) (v : Nat) (a : Alias) (h : Aliases.Get l v = .ok a) :
    ∃ pre post, l = pre ++ a :: post ∧ (∀ b ∈ pre, b.ID ≠ v) ∧ a.ID = v := by
  induction l with
  | nil => simp [Aliases.Get] at h
  | cons b rest ih =>
    by_cases hb : b.ID = v
    · simp only [Aliases.Get, hb, if_true, Except.ok.injEq] at h
      subst h
      exact ⟨[], rest, rfl, by simp, hb⟩
    · simp only [Aliases.Get, hb, if_false] at h
      obtain ⟨pre, post, hl, hpre, ha⟩ := ih h
      refine ⟨b :: pre, post, by simp [hl], ?_, ha⟩
      intro c hc
      rcases List.mem_cons.mp hc with rfl | hc
      · exact hb
      · exact hpre c hc

theorem Aliases.Get_miss (l : Aliases) (v : Nat) (h : ∀ b ∈ l, b.ID ≠ v) :
    Aliases.Get l v = .error ("alias id not found: " ++ fmtDec v) := by
  induction l with
  | nil => rfl
  | cons b rest ih =>
    have hb : b.ID ≠ v := h b (List.mem_cons_self _ _)
    simp only [Aliases.Get, hb, if_false]
    exact ih (fun c hc => h c (List.mem_cons_of_mem _ hc))

theorem Aliases.Get_hit (l : Aliases) (v : Nat) (h : ∃ b ∈ l, b.ID = v) :
    ∃ a, Aliases.Get l v = .ok a := by
  induction l with
  | nil => simp at h
  | cons b rest ih =>
    by_cases hb : b.ID = v
    · exact ⟨b, by simp [Aliases.Get, hb]⟩
    · obtain ⟨c, hc, hcv⟩ := h
      rcases List.mem_cons.mp hc with rfl | hc
      · exact absurd hcv hb
      · obtain ⟨a, ha⟩ := ih ⟨c, hc, hcv⟩
        exact ⟨a, by simp [Aliases.Get, hb, ha]⟩

/-! ## The operand decoder, tag by tag -/

theorem GetArgument_owner (f : FilterInfo) (sb : Sandbox) (v : Nat) (h : f.DataType = ARG_OWNER) :
    f.GetArgument sb v =
      match Aliases.Get f.Aliases v with
      | .error err => .error err
      | .ok a => .ok (.str a.Name) := by
  simp [FilterInfo.GetArgument, h, ARG_OWNER, ARG_BOOLEAN, ARG_OCTAL, ARG_CTRL]

theorem GetArgument_ctrl (f : FilterInfo) (sb : Sandbox) (v : Nat) (h : f.DataType = ARG_CTRL) :
    f.GetArgument sb v =
      match Aliases.Get f.Aliases v with
      | .error _ => .ok (.str ("_IO \"" ++ fmtChar (v >>> 8) ++ "\" " ++ fmtDec (v &&& 0xff)))
      | .ok a => .ok (.str a.Name) := by
  simp [FilterInfo.GetArgument, h, ARG_BOOLEAN, ARG_OCTAL, ARG_CTRL]

theorem GetArgument_network (f : FilterInfo) (sb : Sandbox) (v host port : Nat)
    (h : f.DataType = ARG_NETWORK_OFFSET) (hhp : sb.GetHostPortAtOffset v = .ok (host, port)) :
    f.GetArgument sb v =
      match Aliases.Get f.Aliases (if host > 0x100 then host &&& 0xff else host) with
      | .error err => .error err
      | .ok a => .ok (.str (a.Name ++ " \"" ++ (if host > 0x100 then "localhost" else "*") ++ ":"
          ++ (if port ≠ 0 then fmtDec port else "*") ++ "\"")) := by
  simp [FilterInfo.GetArgument, h, hhp, ARG_NETWORK_OFFSET, ARG_RSS_OFFSET_WITH_TYPE,
    ARG_RSS_OFFSET, ARG_NOT_SURE_YET, ARG_STRING_OFFSET, ARG_OWNER, ARG_BOOLEAN, ARG_OCTAL,
    ARG_CTRL]

/-! ## Owner operands -/

/-- C1: for a filter with the owner tag (3), `GetArgument` succeeds if and only if some
alias of the filter has `ID` equal to the raw value; a successful result is the `Name` of
the first such alias in list order, and when no alias matches the result is the error
"alias id not found", never a text. -/
theorem owner_lookup (f : FilterInfo) (sb : Sandbox) (v : Nat) (h : f.DataType = ARG_OWNER) :
    ((∃ x, f.GetArgument sb v = .ok x) ↔ ∃ a ∈ f.Aliases, a.ID = v) ∧
    (∀ x, f.GetArgument sb v = .ok x →
      ∃ pre a post, f.Aliases = pre ++ a :: post ∧ (∀ b ∈ pre, b.ID ≠ v) ∧ a.ID = v ∧
        x = .str a.Name) ∧
    ((∀ a ∈ f.Aliases, a.ID ≠ v) →
      f.GetArgument sb v = .error ("alias id not found: " ++ fmtDec v)) := by
  rw [GetArgument_owner f sb v h]
  refine ⟨⟨?_, ?_⟩, ?_, ?_⟩
  · rintro ⟨x, hx⟩
    cases hg : Aliases.Get f.Aliases v with
    | error e => rw [hg] at hx; cases hx
    | ok a =>
      obtain ⟨pre, post, hl, -, ha⟩ := Aliases.Get_ok_split _ _ _ hg
      exact ⟨a, by rw [hl]; simp, ha⟩
  · intro hex
    obtain ⟨a, ha⟩ := Aliases.Get_hit _ _ hex
    exact ⟨.str a.Name, by rw [ha]⟩
  · intro x hx
    cases hg : Aliases.Get f.Aliases v with
    | error e => rw [hg] at hx; cases hx
    | ok a =>
      rw [hg] at hx
      obtain ⟨pre, post, hl, hpre, ha⟩ := Aliases.Get_ok_split _ _ _ hg
      refine ⟨pre, a, post, hl, hpre, ha, ?_⟩
      simpa using hx.symm
  · intro hall
    rw [Aliases.Get_miss _ _ hall]

/-- The owner lookup on a filter with aliases 5, 7, 7: the first alias of id 7 is found. -/
theorem owner_lookup_witness :
    (mkFilter "c" 3 [mkAlias "x" 5, mkAlias "y" 7, mkAlias "z" 7]).GetArgument sbNone 7
        = .ok (.str "y") ∧
      ((∃ x, (mkFilter "c" 3 [mkAlias "x" 5, mkAlias "y" 7, mkAlias "z" 7]).GetArgument sbNone 7
        = .ok x) ↔
        ∃ a ∈ (mkFilter "c" 3 [mkAlias "x" 5, mkAlias "y" 7, mkAlias "z" 7]).Aliases, a.ID = 7) :=
  ⟨rfl,
    (owner_lookup (mkFilter "c" 3 [mkAlias "x" 5, mkAlias "y" 7, mkAlias "z" 7]) sbNone 7
      (by decide)).1⟩

/-! ## Unsupported tags -/

/-- C2: for a filter whose data type is none of the nine supported tags, `GetArgument`
fails, for every raw value, alias list and collaborator, with the error
"unsupported filter category: " followed by the filter's category name. -/
theorem unsupported_category (f : FilterInfo) (sb : Sandbox) (v : Nat)
    (h : ¬ (1 ≤ f.DataType ∧ f.DataType ≤ 9)) :
    f.GetArgument sb v = .error ("unsupported filter category: " ++ f.Category) := by
  have h1 : f.DataType ≠ 1 := fun e => h (by omega)
  have h2 : f.DataType ≠ 2 := fun e => h (by omega)
  have h3 : f.DataType ≠ 3 := fun e => h (by omega)
  have h4 : f.DataType ≠ 4 := fun e => h (by omega)
  have h5 : f.DataType ≠ 5 := fun e => h (by omega)
  have h6 : f.DataType ≠ 6 := fun e => h (by omega)
  have h7 : f.DataType ≠ 7 := fun e => h (by omega)
  have h8 : f.DataType ≠ 8 := fun e => h (by omega)
  have h9 : f.DataType ≠ 9 := fun e => h (by omega)
  simp [FilterInfo.GetArgument, ARG_NETWORK_OFFSET, ARG_RSS_OFFSET_WITH_TYPE,
    ARG_RSS_OFFSET, ARG_NOT_SURE_YET, ARG_STRING_OFFSET, ARG_OWNER, ARG_BOOLEAN, ARG_OCTAL,
    ARG_CTRL, h1, h2, h3, h4, h5, h6, h7, h8, h9]

/-- A filter of data type 10 and category "regex" is rejected with its category name. -/
theorem unsupported_category_witness :
    ¬ (1 ≤ (mkFilter "regex" 10 [mkAlias "x" 5]).DataType ∧
        (mkFilter "regex" 10 [mkAlias "x" 5]).DataType ≤ 9) ∧
      (mkFilter "regex" 10 [mkAlias "x" 5]).GetArgument (sbFixed 1 2) 5
        = .error "unsupported filter category: regex" :=
  ⟨by decide, unsupported_category (mkFilter "regex" 10 [mkAlias "x" 5]) (sbFixed 1 2) 5
    (by decide)⟩

/-! ## Network operands -/

/-- C3: for a filter with the network tag (9) whose host/port lookup yields `(host, port)`:
when `host > 0x100` the host text is "localhost" and the alias is looked up under
`host &&& 0xff`; otherwise (also at `host = 0x100`) the host text is "*" and the alias is
looked up under `host` itself.  A found alias gives exactly
`<alias name> "<host text>:<port text>"`, a missing one makes the decode fail; and
`host = 0x0101`, `port = 80` with an alias found under `0x01` gives `<name> "localhost:80"`. -/
theorem network_decode (f : FilterInfo) (sb : Sandbox) (v host port : Nat)
    (h : f.DataType = ARG_NETWORK_OFFSET) (hhp : sb.GetHostPortAtOffset v = .ok (host, port)) :
    (host > 0x100 →
      (∀ a, Aliases.Get f.Aliases (host &&& 0xff) = .ok a →
        f.GetArgument sb v = .ok (.str (a.Name ++ " \"" ++ "localhost" ++ ":"
          ++ (if port = 0 then "*" else fmtDec port) ++ "\""))) ∧
      ((∀ b ∈ f.Aliases, b.ID ≠ host &&& 0xff) → ∃ e, f.GetArgument sb v = .error e)) ∧
    (host ≤ 0x100 →
      (∀ a, Aliases.Get f.Aliases host = .ok a →
        f.GetArgument sb v = .ok (.str (a.Name ++ " \"" ++ "*" ++ ":"
          ++ (if port = 0 then "*" else fmtDec port) ++ "\""))) ∧
      ((∀ b ∈ f.Aliases, b.ID ≠ host) → ∃ e, f.GetArgument sb v = .error e)) ∧
    (host = 0x0101 → port = 80 → ∀ a, Aliases.Get f.Aliases 0x01 = .ok a →
      f.GetArgument sb v = .ok (.str (a.Name ++ " \"localhost:80\""))) := by
  rw [GetArgument_network f sb v host port h hhp]
  refine ⟨?_, ?_, ?_⟩
  · intro hh
    refine ⟨?_, ?_⟩
    · intro a ha
      by_cases hp : port = 0 <;> simp [hh, ha, hp]
    · intro hall
      simp only [hh, if_true]
      rw [Aliases.Get_miss _ _ hall]
      exact ⟨_, rfl⟩
  · intro hh
    have hh2 : ¬ host > 0x100 := Nat.not_lt.mpr hh
    refine ⟨?_, ?_⟩
    · intro a ha
      by_cases hp : port = 0 <;> simp [hh2, ha, hp]
    · intro hall
      simp only [hh2, if_false]
      rw [Aliases.Get_miss _ _ hall]
      exact ⟨_, rfl⟩
  · intro hh hp a ha
    subst hh hp
    have hkey : (if 0x0101 > 0x100 then 0x0101 &&& 0xff else 0x0101) = 0x01 := by decide
    rw [hkey, ha]
    have hlit : ∀ n : String,
        n ++ " \"" ++ (if 0x0101 > 0x100 then "localhost" else "*") ++ ":"
          ++ (if 80 ≠ 0 then fmtDec 80 else "*") ++ "\"" = n ++ " \"localhost:80\"" := by
      intro n
      simp only [String.append_assoc]
      exact congrArg (fun s => n ++ s) (by decide)
    exact congrArg (fun s => Except.ok (Operand.str s)) (hlit a.Name)

/-- The network decode at `host = 0x0101`, `port = 80` with an alias named "N" of id 1. -/
theorem network_decode_witness :
    (mkFilter "n" 9 [mkAlias "M" 0x101, mkAlias "N" 1]).GetArgument (sbFixed 0x101 80) 3
      = .ok (.str "N \"localhost:80\"") :=
  (network_decode (mkFilter "n" 9 [mkAlias "M" 0x101, mkAlias "N" 1]) (sbFixed 0x101 80) 3
    0x101 80 rfl rfl).2.2 rfl rfl (mkAlias "N" 1) rfl

/-- C4: for a filter with the network tag, whatever the host and the alias list, a
result of `GetArgument` has port text "*" when the host/port lookup yields port 0 (the
result ends with `:*"`), and the decimal rendering of the port when it is non-zero. -/
theorem network_port_text (f : FilterInfo) (sb : Sandbox) (v host port : Nat) (x : Operand)
    (h : f.DataType = ARG_NETWORK_OFFSET) (hhp : sb.GetHostPortAtOffset v = .ok (host, port))
    (hx : f.GetArgument sb v = .ok x) :
    (port = 0 → ∃ a ∈ f.Aliases, ∃ hostStr : String,
      x = .str (a.Name ++ " \"" ++ hostStr ++ ":" ++ "*" ++ "\"")) ∧
    (port ≠ 0 → ∃ a ∈ f.Aliases, ∃ hostStr : String,
      x = .str (a.Name ++ " \"" ++ hostStr ++ ":" ++ String.mk (Nat.toDigits 10 port) ++ "\"")) := by
  rw [GetArgument_network f sb v host port h hhp] at hx
  cases hg : Aliases.Get f.Aliases (if host > 0x100 then host &&& 0xff else host) with
  | error e => rw [hg] at hx; cases hx
  | ok a =>
    rw [hg] at hx
    obtain ⟨pre, post, hl, -, -⟩ := Aliases.Get_ok_split _ _ _ hg
    have hmem : a ∈ f.Aliases := by rw [hl]; simp
    have hx2 : x = .str (a.Name ++ " \"" ++ (if host > 0x100 then "localhost" else "*") ++ ":"
        ++ (if port ≠ 0 then fmtDec port else "*") ++ "\"") := by
      simpa using hx.symm
    refine ⟨?_, ?_⟩
    · intro hp
      refine ⟨a, hmem, if host > 0x100 then "localhost" else "*", ?_⟩
      rw [hx2]; simp [hp]
    · intro hp
      refine ⟨a, hmem, if host > 0x100 then "localhost" else "*", ?_⟩
      rw [hx2]; simp [hp, fmtDec]

/-- The port text for port 0 under a wildcard host and for port 80 under localhost. -/
theorem network_port_text_witness :
    (mkFilter "n" 9 [mkAlias "N" 2]).GetArgument (sbFixed 2 0) 3 = .ok (.str "N \"*:*\"") ∧
      ((0 : Nat) = 0 → ∃ a ∈ (mkFilter "n" 9 [mkAlias "N" 2]).Aliases, ∃ hostStr : String,
        Operand.str "N \"*:*\"" = .str (a.Name ++ " \"" ++ hostStr ++ ":" ++ "*" ++ "\"")) :=
  ⟨rfl, (network_port_text (mkFilter "n" 9 [mkAlias "N" 2]) (sbFixed 2 0) 3 2 0
    (.str "N \"*:*\"") rfl rfl rfl).1⟩

/-! ## IO-control operands -/

theorem char_ofNat_byte (n : Nat) (h : n < 256) : (Char.ofNat n).toNat = n := by
  have hv : n.isValidChar := Or.inl (by omega)
  simp only [Char.ofNat, hv, dite_true, Char.ofNatAux, Char.toNat]
  rfl

/-- C5: for a filter with the IO-control tag (4) and a 16-bit raw value `v`, `GetArgument`
never fails: when some alias has `ID = v` the result is the name of the first such alias,
and otherwise it is the text `_IO "<c>" <n>`, where `c` is the character whose code point
is the high byte `v >>> 8` and `n` the decimal rendering of the low byte `v &&& 0xff`. -/
theorem ctrl_decode (f : FilterInfo) (sb : Sandbox) (v : Nat) (h : f.DataType = ARG_CTRL)
    (hv : v < 65536) :
    (∃ x, f.GetArgument sb v = .ok x) ∧
    ((∃ b ∈ f.Aliases, b.ID = v) →
      ∃ pre a post, f.Aliases = pre ++ a :: post ∧ (∀ b ∈ pre, b.ID ≠ v) ∧ a.ID = v ∧
        f.GetArgument sb v = .ok (.str a.Name)) ∧
    ((∀ b ∈ f.Aliases, b.ID ≠ v) →
      f.GetArgument sb v = .ok (.str ("_IO \"" ++ String.singleton (Char.ofNat (v >>> 8)) ++ "\" "
        ++ String.mk (Nat.toDigits 10 (v &&& 0xff))))) ∧
    (Char.ofNat (v >>> 8)).toNat = v / 256 ∧ v &&& 0xff = v % 256 := by
  rw [GetArgument_ctrl f sb v h]
  refine ⟨?_, ?_, ?_, ?_, ?_⟩
  · cases hg : Aliases.Get f.Aliases v with
    | error e => exact ⟨_, rfl⟩
    | ok a => exact ⟨_, rfl⟩
  · intro hex
    obtain ⟨a, ha⟩ := Aliases.Get_hit _ _ hex
    obtain ⟨pre, post, hl, hpre, hav⟩ := Aliases.Get_ok_split _ _ _ ha
    exact ⟨pre, a, post, hl, hpre, hav, by rw [ha]⟩
  · intro hall
    rw [Aliases.Get_miss _ _ hall]
    rfl
  · have hs : v >>> 8 = v / 256 := by rw [Nat.shiftRight_eq_div_pow]
    rw [hs]
    exact char_ofNat_byte _ (by omega)
  · exact Nat.and_pow_two_sub_one_eq_mod v 8

/-- The IO-control decode of `0x7405` without aliases is `_IO "t" 5`, and with an alias
of that id it is the alias name. -/
theorem ctrl_decode_witness :
    (mkFilter "io" 4 []).GetArgument sbNone 0x7405 = .ok (.str "_IO \"t\" 5") ∧
      (mkFilter "io" 4 [mkAlias "TIOCX" 0x7405]).GetArgument sbNone 0x7405
        = .ok (.str "TIOCX") ∧
      ∃ x, (mkFilter "io" 4 []).GetArgument sbNone 0x7405 = .ok x :=
  ⟨rfl, rfl, (ctrl_decode (mkFilter "io" 4 []) sbNone 0x7405 rfl (by decide)).1⟩

/-! ## Boolean operands -/

/-- C6: for a filter with the boolean tag (1), `GetArgument` succeeds for every raw value,
alias list and collaborator, with "#t" when the value is 1 and "#f" for every other
value. -/
theorem boolean_decode (f : FilterInfo) (sb : Sandbox) (v : Nat) (h : f.DataType = ARG_BOOLEAN) :
    (v = 1 → f.GetArgument sb v = .ok (.str "#t")) ∧
    (v ≠ 1 → f.GetArgument sb v = .ok (.str "#f")) := by
  refine ⟨?_, ?_⟩
  · intro hv
    simp [FilterInfo.GetArgument, h, hv]
  · intro hv
    simp [FilterInfo.GetArgument, h, hv]

/-- The boolean decode of 1, 0 and 2. -/
theorem boolean_decode_witness :
    (mkFilter "b" 1 [mkAlias "x" 1]).GetArgument sbNone 1 = .ok (.str "#t") ∧
      (mkFilter "b" 1 [mkAlias "x" 1]).GetArgument sbNone 0 = .ok (.str "#f") ∧
      (mkFilter "b" 1 [mkAlias "x" 1]).GetArgument (sbFixed 0 0) 2 = .ok (.str "#f") :=
  ⟨(boolean_decode (mkFilter "b" 1 [mkAlias "x" 1]) sbNone 1 rfl).1 rfl,
    (boolean_decode (mkFilter "b" 1 [mkAlias "x" 1]) sbNone 0 rfl).2 (by decide),
    (boolean_decode (mkFilter "b" 1 [mkAlias "x" 1]) (sbFixed 0 0) 2 rfl).2 (by decide)⟩

/-! ## Octal operands -/

theorem toDigitsCore_acc (b fuel : Nat) : ∀ (n : Nat) (ds : List Char),
    Nat.toDigitsCore b fuel n ds = Nat.toDigitsCore b fuel n [] ++ ds := by
  induction fuel with
  | zero => intro n ds; simp [Nat.toDigitsCore]
  | succ fuel ih =>
    intro n ds
    simp only [Nat.toDigitsCore]
    by_cases hz : n / b = 0
    · simp [hz]
    · simp only [hz, if_false]
      rw [ih (n / b) (Nat.digitChar (n % b) :: ds), ih (n / b) [Nat.digitChar (n % b)]]
      simp

theorem digitChar_octal (k : Nat) (h : k < 8) :
    (Nat.digitChar k).toNat - '0'.toNat = k ∧ isOctalDigit (Nat.digitChar k) = true ∧
      (0 < k → Nat.digitChar k ≠ '0') := by
  interval_cases k <;> decide

theorem octalValue_snoc (xs : List Char) (d : Char) :
    octalValue (xs ++ [d]) = octalValue xs * 8 + (d.toNat - '0'.toNat) := by
  simp [octalValue, List.foldl_append]

theorem octalValue_zeros (k : Nat) (xs : List Char) :
    octalValue (List.replicate k '0' ++ xs) = octalValue xs := by
  induction k with
  | zero => simp
  | succ k ih =>
    have : octalValue (List.replicate (k + 1) '0' ++ xs)
        = octalValue (List.replicate k '0' ++ xs) := by
      simp [octalValue, List.replicate_succ]
    rw [this, ih]

theorem octalValue_toDigitsCore (fuel : Nat) : ∀ n, n < fuel →
    octalValue (Nat.toDigitsCore 8 fuel n []) = n := by
  induction fuel with
  | zero => intro n h; omega
  | succ fuel ih =>
    intro n h
    simp only [Nat.toDigitsCore]
    have hd := (digitChar_octal (n % 8) (Nat.mod_lt _ (by decide))).1
    by_cases hz : n / 8 = 0
    · simp only [hz, if_true]
      have : octalValue [Nat.digitChar (n % 8)] = (Nat.digitChar (n % 8)).toNat - '0'.toNat := by
        simp [octalValue]
      rw [this, hd]; omega
    · simp only [hz, if_false]
      rw [toDigitsCore_acc, octalValue_snoc, ih (n / 8) (by omega), hd]
      omega

theorem isOctalDigit_toDigitsCore (fuel : Nat) : ∀ n, ∀ c ∈ Nat.toDigitsCore 8 fuel n [],
    isOctalDigit c = true := by
  induction fuel with
  | zero => intro n c hc; simp [Nat.toDigitsCore] at hc
  | succ fuel ih =>
    intro n c hc
    simp only [Nat.toDigitsCore] at hc
    have hd := (digitChar_octal (n % 8) (Nat.mod_lt _ (by decide))).2.1
    by_cases hz : n / 8 = 0
    · simp only [hz, if_true, List.mem_singleton] at hc
      rw [hc]; exact hd
    · simp only [hz, if_false] at hc
      rw [toDigitsCore_acc] at hc
      rcases List.mem_append.mp hc with hc | hc
      · exact ih _ c hc
      · rw [List.mem_singleton.mp hc]; exact hd

theorem toDigitsCore_head (fuel : Nat) : ∀ n, 0 < n → n < fuel →
    ∃ d rest, Nat.toDigitsCore 8 fuel n [] = d :: rest ∧ d ≠ '0' := by
  induction fuel with
  | zero => intro n _ h; omega
  | succ fuel ih =>
    intro n hpos h
    simp only [Nat.toDigitsCore]
    by_cases hz : n / 8 = 0
    · simp only [hz, if_true]
      have hlt : n < 8 := by omega
      refine ⟨_, [], rfl, ?_⟩
      rw [Nat.mod_eq_of_lt hlt]
      exact (digitChar_octal n hlt).2.2 hpos
    · simp only [hz, if_false]
      rw [toDigitsCore_acc]
      obtain ⟨d, rest, he, hd⟩ := ih (n / 8) (by omega) (by omega)
      exact ⟨d, rest ++ [Nat.digitChar (n % 8)], by rw [he]; rfl, hd⟩

theorem toDigitsCore_length_lower (fuel : Nat) : ∀ n e, 8 ^ e ≤ n → n < fuel →
    e < (Nat.toDigitsCore 8 fuel n []).length := by
  induction fuel with
  | zero => intro n e _ h; omega
  | succ fuel ih =>
    intro n e he h
    simp only [Nat.toDigitsCore]
    by_cases hz : n / 8 = 0
    · simp only [hz, if_true, List.length_singleton]
      have hlt : n < 8 := by omega
      cases e with
      | zero => omega
      | succ e =>
        have : 8 ≤ 8 ^ (e + 1) := by
          calc 8 = 8 ^ 1 := by norm_num
            _ ≤ 8 ^ (e + 1) := Nat.pow_le_pow_right (by norm_num) (by omega)
        omega
    · simp only [hz, if_false]
      rw [toDigitsCore_acc, List.length_append, List.length_singleton]
      cases e with
      | zero => omega
      | succ e =>
        have h8 : 8 ^ e ≤ n / 8 := by
          rw [Nat.le_div_iff_mul_le (by norm_num)]
          rw [pow_succ] at he
          exact he
        have := ih (n / 8) e h8 (by omega)
        omega

theorem fmtOctal04_digits (v : Nat) :
    ∃ ds : List Char, fmtOctal04 v = String.mk ds ∧
      ds = List.replicate (4 - (Nat.toDigits 8 v).length) '0' ++ Nat.toDigits 8 v ∧
      ds.length = max 4 (Nat.toDigits 8 v).length ∧
      (∀ c ∈ ds, isOctalDigit c = true) ∧ octalValue ds = v := by
  refine ⟨_, rfl, rfl, ?_, ?_, ?_⟩
  · rw [List.length_append, List.length_replicate]
    omega
  · intro c hc
    rcases List.mem_append.mp hc with hc | hc
    · rw [(List.mem_replicate.mp hc).2]; decide
    · exact isOctalDigit_toDigitsCore _ _ c hc
  · rw [octalValue_zeros]
    exact octalValue_toDigitsCore _ _ (Nat.lt_succ_self v)

theorem GetArgument_octal (f : FilterInfo) (sb : Sandbox) (v : Nat) (h : f.DataType = ARG_OCTAL) :
    f.GetArgument sb v = .ok (.str ("#o" ++ fmtOctal04 v)) := by
  simp [FilterInfo.GetArgument, h, ARG_BOOLEAN, ARG_OCTAL]

/-- C7: for a filter with the octal tag (2), `GetArgument` succeeds with "#o" followed by
the octal digits of the raw value, left-padded with zeros to a minimum width of four;
every character after the prefix is an octal digit, the unpadded digits have no leading
zero, and reading the digits back as an octal number gives the raw value.  For
`v = 0o755` the result is "#o0755". -/
theorem octal_decode (f : FilterInfo) (sb : Sandbox) (v : Nat) (h : f.DataType = ARG_OCTAL) :
    (∃ ds : List Char, f.GetArgument sb v = .ok (.str ("#o" ++ String.mk ds)) ∧
      ds = List.replicate (4 - (Nat.toDigits 8 v).length) '0' ++ Nat.toDigits 8 v ∧
      4 ≤ ds.length ∧ (∀ c ∈ ds, isOctalDigit c = true) ∧ octalValue ds = v) ∧
    (0 < v → ∃ d rest, Nat.toDigits 8 v = d :: rest ∧ d ≠ '0') ∧
    octalValue (Nat.toDigits 8 v) = v ∧
    (v = 0o755 → f.GetArgument sb v = .ok (.str "#o0755")) := by
  rw [GetArgument_octal f sb v h]
  obtain ⟨ds, hds, hrep, hlen, hoct, hval⟩ := fmtOctal04_digits v
  refine ⟨⟨ds, by rw [hds], hrep, by omega, hoct, hval⟩, ?_, ?_, ?_⟩
  · intro hpos
    exact toDigitsCore_head _ _ hpos (Nat.lt_succ_self v)
  · exact octalValue_toDigitsCore _ _ (Nat.lt_succ_self v)
  · intro hv
    subst hv
    rfl

/-- The octal decode of `0o755` is "#o0755". -/
theorem octal_decode_witness :
    (mkFilter "mode" 2 []).GetArgument sbNone 0o755 = .ok (.str "#o0755") :=
  (octal_decode (mkFilter "mode" 2 []) sbNone 0o755 rfl).2.2.2 rfl

/-- C8, as stated, fails: the raw value `0o10000` decodes to "#o10000", which has seven
characters, five of them digits. -/
theorem octal_six_chars_counterexample :
    (mkFilter "mode" 2 []).GetArgument sbNone 0o10000 = .ok (.str "#o10000") ∧
      ¬ ∃ ds : List Char, ds.length = 4 ∧
        (mkFilter "mode" 2 []).GetArgument sbNone 0o10000 = .ok (.str ("#o" ++ String.mk ds)) := by
  refine ⟨rfl, ?_⟩
  rintro ⟨ds, hlen, hds⟩
  have h1 : (mkFilter "mode" 2 []).GetArgument sbNone 0o10000 = .ok (.str "#o10000") := rfl
  rw [h1] at hds
  have h2 : "#o10000" = "#o" ++ String.mk ds := by
    injection hds with h3
    injection h3
  have h3 : ("#o10000").length = ("#o" ++ String.mk ds).length := by rw [← h2]
  rw [String.length_append] at h3
  have h4 : (String.mk ds).length = ds.length := rfl
  rw [h4, hlen] at h3
  revert h3
  decide

/-- C8, amended: for a filter with the octal tag, the text returned by `GetArgument` is
"#o" followed by octal digits only, at least four of them; it is exactly six characters
long ("#o" and four digits) exactly when the raw value is below `0o10000`, and a larger
16-bit value gives five or six digits. -/
theorem octal_width (f : FilterInfo) (sb : Sandbox) (v : Nat) (h : f.DataType = ARG_OCTAL) :
    ∃ ds : List Char, f.GetArgument sb v = .ok (.str ("#o" ++ String.mk ds)) ∧
      ("#o" ++ String.mk ds).length = 2 + ds.length ∧
      (∀ c ∈ ds, isOctalDigit c = true) ∧ 4 ≤ ds.length ∧
      (v < 0o10000 → ds.length = 4) ∧
      (0o10000 ≤ v → 4 < ds.length) ∧
      (v < 65536 → ds.length ≤ 6) := by
  rw [GetArgument_octal f sb v h]
  obtain ⟨ds, hds, -, hlen, hoct, -⟩ := fmtOctal04_digits v
  refine ⟨ds, by rw [hds], ?_, hoct, by omega, ?_, ?_, ?_⟩
  · rw [String.length_append]
    have h1 : (String.mk ds).length = ds.length := rfl
    have h2 : ("#o").length = 2 := by decide
    rw [h1, h2]
  · intro hv
    have hup := Nat.toDigitsCore_length 8 (by norm_num) (v + 1) v 4 (by norm_num; omega)
      (by norm_num)
    have : (Nat.toDigits 8 v).length ≤ 4 := hup
    omega
  · intro hv
    have hlo := toDigitsCore_length_lower (v + 1) v 4 (by norm_num; omega) (Nat.lt_succ_self v)
    have : 4 < (Nat.toDigits 8 v).length := hlo
    omega
  · intro hv
    have hup := Nat.toDigitsCore_length 8 (by norm_num) (v + 1) v 6 (by norm_num; omega)
      (by norm_num)
    have : (Nat.toDigits 8 v).length ≤ 6 := hup
    omega

/-- The octal text of `0o644` has six characters and that of `0o177777` has eight. -/
theorem octal_width_witness :
    (mkFilter "mode" 2 []).GetArgument sbNone 0o644 = .ok (.str "#o0644") ∧
      (mkFilter "mode" 2 []).GetArgument sbNone 0o177777 = .ok (.str "#o177777") ∧
      ∃ ds : List Char,
        (mkFilter "mode" 2 []).GetArgument sbNone 0o644 = .ok (.str ("#o" ++ String.mk ds)) ∧
        ("#o" ++ String.mk ds).length = 2 + ds.length ∧
        (∀ c ∈ ds, isOctalDigit c = true) ∧ 4 ≤ ds.length ∧
        (0o644 < 0o10000 → ds.length = 4) ∧
        (0o10000 ≤ 0o644 → 4 < ds.length) ∧
        (0o644 < 65536 → ds.length ≤ 6) :=
  ⟨rfl, rfl, octal_width (mkFilter "mode" 2 []) sbNone 0o644 rfl⟩

/-! ## Pattern and path-literal operands -/

theorem GetArgument_pattern (f : FilterInfo) (sb : Sandbox) (v : Nat)
    (h : f.DataType = ARG_RSS_OFFSET ∨ f.DataType = ARG_NOT_SURE_YET) :
    f.GetArgument sb v =
      match sb.GetRSStringAtOffset v with
      | .error err => .error err
      | .ok ss => .ok (.str (stringsJoin ss " ")) := by
  rcases h with h | h <;>
    simp [FilterInfo.GetArgument, h, ARG_RSS_OFFSET, ARG_NOT_SURE_YET, ARG_STRING_OFFSET,
      ARG_OWNER, ARG_BOOLEAN, ARG_OCTAL, ARG_CTRL]

theorem GetArgument_literal (f : FilterInfo) (sb : Sandbox) (v : Nat)
    (h : f.DataType = ARG_RSS_OFFSET_WITH_TYPE) :
    f.GetArgument sb v =
      match sb.GetRSStringAtOffset v with
      | .error err => .error err
      | .ok ss => .ok (.strs ["literal", stringsJoin ss " "]) := by
  simp [FilterInfo.GetArgument, h, ARG_RSS_OFFSET_WITH_TYPE, ARG_RSS_OFFSET, ARG_NOT_SURE_YET,
    ARG_STRING_OFFSET, ARG_OWNER, ARG_BOOLEAN, ARG_OCTAL, ARG_CTRL]

/-- C9: for every raw value and collaborator, decoding with the path-literal tag (8) is
the pattern decode wrapped.  Tags 6 and 7 give identical results; tag 8 succeeds exactly
when they do; the pattern result is the bare string of the collaborator's tokens joined
by a single space, and the path-literal result is the two-element sequence
("literal", that string); a collaborator error is returned as it is by all three. -/
theorem literal_wraps_pattern (f6 f7 f8 : FilterInfo) (sb : Sandbox) (v : Nat)
    (h6 : f6.DataType = ARG_RSS_OFFSET) (h7 : f7.DataType = ARG_NOT_SURE_YET)
    (h8 : f8.DataType = ARG_RSS_OFFSET_WITH_TYPE) :
    f6.GetArgument sb v = f7.GetArgument sb v ∧
    ((∃ x, f8.GetArgument sb v = .ok x) ↔ ∃ y, f6.GetArgument sb v = .ok y) ∧
    (∀ y, f6.GetArgument sb v = .ok y →
      ∃ s, y = .str s ∧ f8.GetArgument sb v = .ok (.strs ["literal", s])) ∧
    (∀ x, f8.GetArgument sb v = .ok x →
      ∃ s, x = .strs ["literal", s] ∧ f6.GetArgument sb v = .ok (.str s)) ∧
    (∀ ss, sb.GetRSStringAtOffset v = .ok ss →
      f6.GetArgument sb v = .ok (.str (String.intercalate " " ss)) ∧
      f8.GetArgument sb v = .ok (.strs ["literal", String.intercalate " " ss])) ∧
    (∀ e, sb.GetRSStringAtOffset v = .error e →
      f6.GetArgument sb v = .error e ∧ f8.GetArgument sb v = .error e) := by
  rw [GetArgument_pattern f6 sb v (Or.inl h6), GetArgument_pattern f7 sb v (Or.inr h7),
    GetArgument_literal f8 sb v h8]
  cases hg : sb.GetRSStringAtOffset v with
  | error e =>
    refine ⟨rfl, ⟨?_, ?_⟩, ?_, ?_, ?_, ?_⟩
    · rintro ⟨x, hx⟩; cases hx
    · rintro ⟨y, hy⟩; cases hy
    · intro y hy; cases hy
    · intro x hx; cases hx
    · intro ss hss; cases hss
    · intro e2 he; cases he; exact ⟨rfl, rfl⟩
  | ok ss =>
    refine ⟨rfl, ⟨fun _ => ⟨_, rfl⟩, fun _ => ⟨_, rfl⟩⟩, ?_, ?_, ?_, ?_⟩
    · intro y hy; cases hy; exact ⟨_, rfl, rfl⟩
    · intro x hx; cases hx; exact ⟨_, rfl, rfl⟩
    · intro ss2 hss; cases hss; exact ⟨rfl, rfl⟩
    · intro e he; cases he

/-- The pattern and path-literal decodes of a two-token pattern. -/
theorem literal_wraps_pattern_witness :
    (mkFilter "p" 6 []).GetArgument (sbFixed 0 0) 4 = .ok (.str "a b") ∧
      (mkFilter "q" 7 []).GetArgument (sbFixed 0 0) 4 = .ok (.str "a b") ∧
      (mkFilter "r" 8 []).GetArgument (sbFixed 0 0) 4 = .ok (.strs ["literal", "a b"]) ∧
      (mkFilter "p" 6 []).GetArgument (sbFixed 0 0) 4
        = (mkFilter "q" 7 []).GetArgument (sbFixed 0 0) 4 :=
  ⟨rfl, rfl, rfl,
    (literal_wraps_pattern (mkFilter "p" 6 []) (mkFilter "q" 7 []) (mkFilter "r" 8 [])
      (sbFixed 0 0) 4 rfl rfl rfl).1⟩

/-! ## Snapshot lookup -/

/-- C10: `GetFilter` fails if and only if `id ≥ len(Filters)`, and then with the error
"invalid filter id"; otherwise it returns the filter stored at position `id`; in both
cases the snapshot is left as it was. -/
theorem getFilter_bounds (db : LibSandbox) (id : Nat) :
    ((∃ e, (db.GetFilter id).1 = .error e) ↔ id ≥ db.Filters.length) ∧
    ((db.GetFilter id).1 = .error ("invalid filter id: " ++ fmtDec id) ↔
      id ≥ db.Filters.length) ∧
    (∀ fi, (db.GetFilter id).1 = .ok fi ↔ db.Filters[id]? = some fi) ∧
    (db.GetFilter id).2 = db := by
  unfold LibSandbox.GetFilter
  by_cases h : id ≥ db.Filters.length
  · simp only [h, dite_true, iff_true, true_and, and_true]
    refine ⟨⟨_, rfl⟩, ?_⟩
    intro fi
    rw [List.getElem?_eq_none h]
    simp
  · have hlt : id < db.Filters.length := Nat.lt_of_not_ge h
    simp only [h, dite_false, iff_false, and_true]
    refine ⟨?_, ?_, ?_⟩
    · rintro ⟨e, he⟩; cases he
    · intro he; cases he
    · intro fi
      rw [List.getElem?_eq_getElem hlt]
      simp

/-! ## Chains -/

theorem eq_of_okValue {α : Type} (o : Option (Except String α)) (x : α)
    (h : okValue o = some x) : o = some (.ok x) := by
  unfold okValue at h
  split at h
  · rename_i y; rw [Option.some.injEq] at h; rw [h]
  · cases h

theorem ChainLoop.none_iff {β : Type} {G : Nat → Nat → List β → Option (Except String (List β))}
    {item : Nat → Option β} {term : Nat → Bool} (c : ChainLoop G item term) :
    ∀ fuel i acc, G fuel i acc = none ↔ ∀ j, j < fuel → (item (i + j)).isSome = true := by
  intro fuel
  induction fuel with
  | zero => intro i acc; simp [c.zero]
  | succ fuel ih =>
    intro i acc
    cases hi : item i with
    | some b =>
      rw [c.step fuel i acc b hi, ih]
      constructor
      · intro h j hj
        cases j with
        | zero => simp [hi]
        | succ j =>
          have := h j (by omega)
          rwa [show i + 1 + j = i + (j + 1) by omega] at this
      · intro h j hj
        have := h (j + 1) (by omega)
        rwa [show i + (j + 1) = i + 1 + j by omega] at this
    | none =>
      have hret : G (fuel + 1) i acc ≠ none := by
        cases ht : term i with
        | true => rw [c.stop fuel i acc ht]; simp
        | false =>
          obtain ⟨e, he⟩ := c.fail fuel i acc hi ht
          rw [he]; simp
      constructor
      · intro h; exact absurd h hret
      · intro h
        have := h 0 (by omega)
        simp [hi] at this

theorem ChainLoop.ok_iff {β : Type} {G : Nat → Nat → List β → Option (Except String (List β))}
    {item : Nat → Option β} {term : Nat → Bool} (c : ChainLoop G item term) :
    ∀ fuel i acc out, G fuel i acc = some (.ok out) ↔
      ∃ new, out = acc ++ new ∧ new.length < fuel ∧
        (∀ j, j < new.length → item (i + j) = new[j]?) ∧ term (i + new.length) = true := by
  intro fuel
  induction fuel with
  | zero => intro i acc out; simp [c.zero]
  | succ fuel ih =>
    intro i acc out
    cases hi : item i with
    | some b =>
      have hterm : term i = false := by
        cases ht : term i with
        | false => rfl
        | true => rw [c.excl i ht] at hi; cases hi
      rw [c.step fuel i acc b hi, ih]
      constructor
      · rintro ⟨new, hout, hlen, hitems, ht⟩
        refine ⟨b :: new, by simp [hout], by simp; omega, ?_, ?_⟩
        · intro j hj
          cases j with
          | zero => simp [hi]
          | succ j =>
            have := hitems j (by simp at hj; omega)
            simpa [show i + (j + 1) = i + 1 + j by omega] using this
        · simpa [show i + (new.length + 1) = i + 1 + new.length by omega] using ht
      · rintro ⟨new, hout, hlen, hitems, ht⟩
        cases new with
        | nil =>
          simp at ht
          rw [ht] at hterm; cases hterm
        | cons b2 new =>
          have h0 := hitems 0 (by simp)
          simp [hi] at h0
          subst h0
          refine ⟨new, by simp [hout], by simp at hlen; omega, ?_, ?_⟩
          · intro j hj
            have := hitems (j + 1) (by simp; omega)
            simpa [show i + (j + 1) = i + 1 + j by omega] using this
          · simpa [show i + (new.length + 1) = i + 1 + new.length by omega] using ht
    | none =>
      cases ht : term i with
      | true =>
        rw [c.stop fuel i acc ht]
        constructor
        · intro h
          have : out = acc := by
            injection h with h; injection h with h; exact h.symm
          exact ⟨[], by simp [this], by simp, by simp, by simpa using ht⟩
        · rintro ⟨new, hout, hlen, hitems, ht2⟩
          cases new with
          | nil => simp [hout]
          | cons b2 new =>
            have h0 := hitems 0 (by simp)
            simp [hi] at h0
      | false =>
        obtain ⟨e, he⟩ := c.fail fuel i acc hi ht
        rw [he]
        constructor
        · intro h; injection h with h; cases h
        · rintro ⟨new, hout, hlen, hitems, ht2⟩
          cases new with
          | nil => simp at ht2; rw [ht2] at ht; cases ht
          | cons b2 new =>
            have h0 := hitems 0 (by simp)
            simp [hi] at h0

theorem next_step (k i : Nat) : (k * i % U64 + k) % U64 = k * (i + 1) % U64 := by
  rw [Nat.mod_add_mod, Nat.mul_succ]

theorem filterAliasLoop_chain (d : DyldFile) (aliasesAddr : Nat) :
    ChainLoop (fun fuel i acc => filterAliasLoop d aliasesAddr fuel (sizeOfAlias * i % U64) acc)
      (aliasAt d aliasesAddr) (terminatorAt d aliasesAddr) where
  zero := by intro i acc; rfl
  step := by
    intro fuel i acc b hb
    simp only [aliasAt, aliasRecordAt] at hb
    simp only [filterAliasLoop]
    rw [next_step,
      show (d.SlidePointer aliasesAddr + sizeOfAlias * i % U64) % U64
        = aliasSlot d aliasesAddr i from rfl]
    cases h1 : d.GetOffset (aliasSlot d aliasesAddr i) with
    | error e => simp [h1] at hb
    | ok p =>
      obtain ⟨uuid, off⟩ := p
      simp only [h1] at hb ⊢
      cases h2 : d.ReadBytesForUUID uuid off sizeOfAlias with
      | error e => simp [h2] at hb
      | ok dat =>
        simp only [h2] at hb ⊢
        cases h3 : readFull dat sizeOfAlias with
        | error e => simp [h3] at hb
        | ok q =>
          obtain ⟨bs, rest⟩ := q
          simp only [h3] at hb ⊢
          by_cases h4 : (decodeAlias bs).NameAddr = 0
          · simp [h4] at hb
          · simp only [h4, if_false] at hb ⊢
            cases h5 : d.GetCString (d.SlidePointer (decodeAlias bs).NameAddr) with
            | error e => simp [h5] at hb
            | ok name =>
              simp only [h5, Option.some.injEq] at hb ⊢
              rw [hb]
  stop := by
    intro fuel i acc ht
    simp only [terminatorAt, aliasRecordAt] at ht
    simp only [filterAliasLoop]
    rw [show (d.SlidePointer aliasesAddr + sizeOfAlias * i % U64) % U64
        = aliasSlot d aliasesAddr i from rfl]
    cases h1 : d.GetOffset (aliasSlot d aliasesAddr i) with
    | error e => simp [h1] at ht
    | ok p =>
      obtain ⟨uuid, off⟩ := p
      simp only [h1] at ht ⊢
      cases h2 : d.ReadBytesForUUID uuid off sizeOfAlias with
      | error e => simp [h2] at ht
      | ok dat =>
        simp only [h2] at ht ⊢
        cases h3 : readFull dat sizeOfAlias with
        | error e => simp [h3] at ht
        | ok q =>
          obtain ⟨bs, rest⟩ := q
          simp only [h3, decide_eq_true_eq] at ht ⊢
          simp [ht]
  fail := by
    intro fuel i acc hi ht
    simp only [aliasAt, terminatorAt, aliasRecordAt] at hi ht
    simp only [filterAliasLoop]
    rw [show (d.SlidePointer aliasesAddr + sizeOfAlias * i % U64) % U64
        = aliasSlot d aliasesAddr i from rfl]
    cases h1 : d.GetOffset (aliasSlot d aliasesAddr i) with
    | error e => exact ⟨_, rfl⟩
    | ok p =>
      obtain ⟨uuid, off⟩ := p
      simp only [h1] at hi ht ⊢
      cases h2 : d.ReadBytesForUUID uuid off sizeOfAlias with
      | error e => exact ⟨_, rfl⟩
      | ok dat =>
        simp only [h2] at hi ht ⊢
        cases h3 : readFull dat sizeOfAlias with
        | error e => exact ⟨_, rfl⟩
        | ok q =>
          obtain ⟨bs, rest⟩ := q
          simp only [h3, decide_eq_false_iff_not] at hi ht ⊢
          simp only [ht, if_false] at hi ⊢
          cases h5 : d.GetCString (d.SlidePointer (decodeAlias bs).NameAddr) with
          | error e => exact ⟨_, rfl⟩
          | ok name => simp [h5] at hi
  excl := by
    intro i ht
    simp only [terminatorAt] at ht
    simp only [aliasAt]
    cases h : aliasRecordAt d (aliasSlot d aliasesAddr i) with
    | none => rfl
    | some raw =>
      simp only [h, decide_eq_true_eq] at ht
      simp [ht]

theorem modifierAliasLoop_eq_filter (d : DyldFile) (aliasesAddr : Nat) :
    ∀ fuel next acc,
      modifierAliasLoop d aliasesAddr fuel next acc = filterAliasLoop d aliasesAddr fuel next acc := by
  intro fuel
  induction fuel with
  | zero => intro next acc; rfl
  | succ fuel ih =>
    intro next acc
    simp only [modifierAliasLoop, filterAliasLoop, ih]

theorem sentinelLoop_chain (d : DyldFile) (what : String) (arrayAddr : Nat) :
    ChainLoop (fun fuel i acc => sentinelLoop d what arrayAddr fuel (8 * i % U64) acc)
      (stringAt d arrayAddr) (zeroSlotAt d arrayAddr) where
  zero := by intro i acc; rfl
  step := by
    intro fuel i acc b hb
    simp only [stringAt] at hb
    simp only [sentinelLoop]
    rw [next_step,
      show (d.SlidePointer arrayAddr + 8 * i % U64) % U64 = pointerSlot d arrayAddr i from rfl]
    cases h1 : d.ReadPointerAtAddress (pointerSlot d arrayAddr i) with
    | error e => simp [h1] at hb
    | ok addr =>
      simp only [h1] at hb ⊢
      by_cases h4 : addr = 0
      · simp [h4] at hb
      · simp only [h4, if_false] at hb ⊢
        cases h5 : d.GetCString (d.SlidePointer addr) with
        | error e => simp [h5] at hb
        | ok s =>
          simp only [h5, Option.some.injEq] at hb ⊢
          rw [hb]
  stop := by
    intro fuel i acc ht
    simp only [zeroSlotAt] at ht
    simp only [sentinelLoop]
    rw [show (d.SlidePointer arrayAddr + 8 * i % U64) % U64 = pointerSlot d arrayAddr i from rfl]
    cases h1 : d.ReadPointerAtAddress (pointerSlot d arrayAddr i) with
    | error e => simp [h1] at ht
    | ok addr =>
      simp only [h1, decide_eq_true_eq] at ht ⊢
      simp [ht]
  fail := by
    intro fuel i acc hi ht
    simp only [stringAt, zeroSlotAt] at hi ht
    simp only [sentinelLoop]
    rw [show (d.SlidePointer arrayAddr + 8 * i % U64) % U64 = pointerSlot d arrayAddr i from rfl]
    cases h1 : d.ReadPointerAtAddress (pointerSlot d arrayAddr i) with
    | error e => exact ⟨_, rfl⟩
    | ok addr =>
      simp only [h1, decide_eq_false_iff_not] at hi ht ⊢
      simp only [ht, if_false] at hi ⊢
      cases h5 : d.GetCString (d.SlidePointer addr) with
      | error e => exact ⟨_, rfl⟩
      | ok s => simp [h5] at hi
  excl := by
    intro i ht
    simp only [zeroSlotAt] at ht
    simp only [stringAt]
    cases h : d.ReadPointerAtAddress (pointerSlot d arrayAddr i) with
    | error e => rfl
    | ok addr =>
      simp only [h, decide_eq_true_eq] at ht
      simp [ht]

/-! ## Records -/

theorem readFull_ok (r : List Nat) (n : Nat) (bs rest : List Nat)
    (h : readFull r n = .ok (bs, rest)) : n ≤ r.length ∧ bs = r.take n ∧ rest = r.drop n := by
  unfold readFull at h
  by_cases h0 : n = 0
  · simp only [h0, if_true, Except.ok.injEq, Prod.mk.injEq] at h
    subst h0
    simp [← h.1, ← h.2]
  · by_cases h1 : r.length = 0
    · simp [h0, h1] at h
    · by_cases h2 : r.length < n
      · simp [h0, h1, h2] at h
      · simp only [h0, h1, h2, if_false, Except.ok.injEq, Prod.mk.injEq] at h
        exact ⟨by omega, h.1.symm, h.2.symm⟩

theorem readFull_of_le (r : List Nat) (n : Nat) (h : n ≤ r.length) :
    readFull r n = .ok (r.take n, r.drop n) := by
  unfold readFull
  by_cases h0 : n = 0
  · subst h0; simp
  · have h1 : r.length ≠ 0 := by omega
    have h2 : ¬ r.length < n := by omega
    simp [h0, h1, h2]

theorem readFull_short (r : List Nat) (n : Nat) (h : r.length < n) :
    ∃ e, readFull r n = .error e := by
  unfold readFull
  have h0 : n ≠ 0 := by omega
  by_cases h1 : r.length = 0
  · exact ⟨"EOF", by simp [h0, h1]⟩
  · exact ⟨"unexpected EOF", by simp [h0, h1, h]⟩

theorem aliasAt_some (d : DyldFile) (aliasesAddr i : Nat) (a : Alias)
    (h : aliasAt d aliasesAddr i = some a) :
    ∃ raw, aliasRecordAt d (aliasSlot d aliasesAddr i) = some raw ∧
      a = { raw with Name := a.Name } ∧ a.NameAddr ≠ 0 ∧
      d.GetCString (d.SlidePointer a.NameAddr) = .ok a.Name := by
  unfold aliasAt at h
  cases hr : aliasRecordAt d (aliasSlot d aliasesAddr i) with
  | none => simp [hr] at h
  | some raw =>
    simp only [hr] at h
    by_cases h0 : raw.NameAddr = 0
    · simp [h0] at h
    · simp only [h0, if_false] at h
      cases hs : d.GetCString (d.SlidePointer raw.NameAddr) with
      | error e => simp [hs] at h
      | ok name =>
        simp only [hs, Option.some.injEq] at h
        subst h
        exact ⟨raw, rfl, rfl, h0, hs⟩

theorem terminatorAt_true (d : DyldFile) (aliasesAddr i : Nat)
    (h : terminatorAt d aliasesAddr i = true) :
    ∃ raw, aliasRecordAt d (aliasSlot d aliasesAddr i) = some raw ∧ raw.NameAddr = 0 := by
  unfold terminatorAt at h
  cases hr : aliasRecordAt d (aliasSlot d aliasesAddr i) with
  | none => simp [hr] at h
  | some raw =>
    simp only [hr, decide_eq_true_eq] at h
    exact ⟨raw, rfl, h⟩

theorem filterAliasLoop_ok_iff (d : DyldFile) (aliasesAddr fuel : Nat) (as : List Alias) :
    filterAliasLoop d aliasesAddr fuel 0 [] = some (.ok as) ↔
      as.length < fuel ∧ (∀ i, i < as.length → aliasAt d aliasesAddr i = as[i]?) ∧
        terminatorAt d aliasesAddr as.length = true := by
  have h := (filterAliasLoop_chain d aliasesAddr).ok_iff fuel 0 [] as
  simp only [Nat.mul_zero, Nat.zero_mod, List.nil_append, Nat.zero_add] at h
  rw [h]
  constructor
  · rintro ⟨new, rfl, h1, h2, h3⟩; exact ⟨h1, h2, h3⟩
  · rintro ⟨h1, h2, h3⟩; exact ⟨as, rfl, h1, h2, h3⟩

theorem filterAliasLoop_none_iff (d : DyldFile) (aliasesAddr fuel : Nat) :
    filterAliasLoop d aliasesAddr fuel 0 [] = none ↔
      ∀ i, i < fuel → (aliasAt d aliasesAddr i).isSome = true := by
  have h := (filterAliasLoop_chain d aliasesAddr).none_iff fuel 0 []
  simpa only [Nat.mul_zero, Nat.zero_mod, Nat.zero_add] using h

theorem sentinelLoop_ok_iff (d : DyldFile) (what : String) (arrayAddr fuel : Nat)
    (ss : List String) :
    sentinelLoop d what arrayAddr fuel 0 [] = some (.ok ss) ↔
      ss.length < fuel ∧ (∀ i, i < ss.length → stringAt d arrayAddr i = ss[i]?) ∧
        zeroSlotAt d arrayAddr ss.length = true := by
  have h := (sentinelLoop_chain d what arrayAddr).ok_iff fuel 0 [] ss
  simp only [Nat.mul_zero, Nat.zero_mod, List.nil_append, Nat.zero_add] at h
  rw [h]
  constructor
  · rintro ⟨new, rfl, h1, h2, h3⟩; exact ⟨h1, h2, h3⟩
  · rintro ⟨h1, h2, h3⟩; exact ⟨ss, rfl, h1, h2, h3⟩

theorem sentinelLoop_none_iff (d : DyldFile) (what : String) (arrayAddr fuel : Nat) :
    sentinelLoop d what arrayAddr fuel 0 [] = none ↔
      ∀ i, i < fuel → (stringAt d arrayAddr i).isSome = true := by
  have h := (sentinelLoop_chain d what arrayAddr).none_iff fuel 0 []
  simpa only [Nat.mul_zero, Nat.zero_mod, Nat.zero_add] using h

theorem filterItem_ok (d : DyldFile) (fuel i : Nat) (r : List Nat) (fi : FilterInfo)
    (rest : List Nat) (h : filterItem d fuel i r = some (.ok (fi, rest))) :
    sizeOfFilterInfo ≤ r.length ∧ rest = r.drop sizeOfFilterInfo ∧
      fi = { decodeFilterInfo i (r.take sizeOfFilterInfo) with
        Name := fi.Name, Category := fi.Category, Aliases := fi.Aliases } ∧
      (fi.NameAddr = 0 → fi.Name = "") ∧
      (fi.NameAddr ≠ 0 → d.GetCString (d.SlidePointer fi.NameAddr) = .ok fi.Name) ∧
      (fi.CategoryAddr = 0 → fi.Category = "") ∧
      (fi.CategoryAddr ≠ 0 → d.GetCString (d.SlidePointer fi.CategoryAddr) = .ok fi.Category) ∧
      (fi.AliasesAddr = 0 → fi.Aliases = []) ∧
      (fi.AliasesAddr ≠ 0 →
        filterAliasLoop d fi.AliasesAddr fuel 0 [] = some (.ok fi.Aliases)) := by
  unfold filterItem at h
  cases h1 : readFull r sizeOfFilterInfo with
  | error e => simp [h1] at h
  | ok p =>
    obtain ⟨bs, rest2⟩ := p
    obtain ⟨hlen, hbs, hrest⟩ := readFull_ok _ _ _ _ h1
    subst hbs
    simp only [h1] at h
    split at h
    · cases h
    · rename_i name hname
      split at h
      · cases h
      · rename_i category hcat
        split at h
        · cases h
        · cases h
        · rename_i aliases hal
          simp only [Option.some.injEq, Except.ok.injEq, Prod.mk.injEq] at h
          obtain ⟨hfi, hr⟩ := h
          subst hfi
          refine ⟨hlen, by rw [← hr, hrest], rfl, ?_, ?_, ?_, ?_, ?_, ?_⟩
          · intro h0
            have h0b : (decodeFilterInfo i (List.take sizeOfFilterInfo r)).NameAddr = 0 := h0
            simp only [h0b, ne_eq, not_true_eq_false, if_false, Except.ok.injEq] at hname
            exact hname.symm
          · intro h0
            have h0b : (decodeFilterInfo i (List.take sizeOfFilterInfo r)).NameAddr ≠ 0 := h0
            simp only [h0b, ne_eq, not_false_eq_true, if_true] at hname
            exact hname
          · intro h0
            have h0b : (decodeFilterInfo i (List.take sizeOfFilterInfo r)).CategoryAddr = 0 := h0
            simp only [h0b, ne_eq, not_true_eq_false, if_false, Except.ok.injEq] at hcat
            exact hcat.symm
          · intro h0
            have h0b : (decodeFilterInfo i (List.take sizeOfFilterInfo r)).CategoryAddr ≠ 0 := h0
            simp only [h0b, ne_eq, not_false_eq_true, if_true] at hcat
            exact hcat
          · intro h0
            have h0b : (decodeFilterInfo i (List.take sizeOfFilterInfo r)).AliasesAddr = 0 := h0
            simp only [h0b, ne_eq, not_true_eq_false, if_false, Option.some.injEq,
              Except.ok.injEq] at hal
            exact hal.symm
          · intro h0
            have h0b : (decodeFilterInfo i (List.take sizeOfFilterInfo r)).AliasesAddr ≠ 0 := h0
            simp only [h0b, ne_eq, not_false_eq_true, if_true] at hal
            exact hal

theorem modifierItem_ok (d : DyldFile) (fuel i : Nat) (r : List Nat) (mi : ModifierInfo)
    (rest : List Nat) (h : modifierItem d fuel i r = some (.ok (mi, rest))) :
    sizeOfModifierInfo ≤ r.length ∧ rest = r.drop sizeOfModifierInfo ∧
      mi = { decodeModifierInfo i (r.take sizeOfModifierInfo) with
        Name := mi.Name, Aliases := mi.Aliases } ∧
      (mi.NameAddr = 0 → mi.Name = "") ∧
      (mi.NameAddr ≠ 0 → d.GetCString (d.SlidePointer mi.NameAddr) = .ok mi.Name) ∧
      (mi.AliasesAddr = 0 → mi.Aliases = []) ∧
      (mi.AliasesAddr ≠ 0 →
        modifierAliasLoop d mi.AliasesAddr fuel 0 [] = some (.ok mi.Aliases)) := by
  unfold modifierItem at h
  cases h1 : readFull r sizeOfModifierInfo with
  | error e => simp [h1] at h
  | ok p =>
    obtain ⟨bs, rest2⟩ := p
    obtain ⟨hlen, hbs, hrest⟩ := readFull_ok _ _ _ _ h1
    subst hbs
    simp only [h1] at h
    split at h
    · cases h
    · rename_i name hname
      split at h
      · cases h
      · cases h
      · rename_i aliases hal
        simp only [Option.some.injEq, Except.ok.injEq, Prod.mk.injEq] at h
        obtain ⟨hmi, hr⟩ := h
        subst hmi
        refine ⟨hlen, by rw [← hr, hrest], rfl, ?_, ?_, ?_, ?_⟩
        · intro h0
          have h0b : (decodeModifierInfo i (List.take sizeOfModifierInfo r)).NameAddr = 0 := h0
          simp only [h0b, ne_eq, not_true_eq_false, if_false, Except.ok.injEq] at hname
          exact hname.symm
        · intro h0
          have h0b : (decodeModifierInfo i (List.take sizeOfModifierInfo r)).NameAddr ≠ 0 := h0
          simp only [h0b, ne_eq, not_false_eq_true, if_true] at hname
          exact hname
        · intro h0
          have h0b : (decodeModifierInfo i (List.take sizeOfModifierInfo r)).AliasesAddr = 0 := h0
          simp only [h0b, ne_eq, not_true_eq_false, if_false, Option.some.injEq,
            Except.ok.injEq] at hal
          exact hal.symm
        · intro h0
          have h0b : (decodeModifierInfo i (List.take sizeOfModifierInfo r)).AliasesAddr ≠ 0 := h0
          simp only [h0b, ne_eq, not_false_eq_true, if_true] at hal
          exact hal

theorem filterLoop_ok (d : DyldFile) (fuel : Nat) :
    ∀ k i r acc out, filterLoop d fuel k i r acc = some (.ok out) →
      ∃ new, out = acc ++ new ∧ new.length = k ∧ k * sizeOfFilterInfo ≤ r.length ∧
        ∀ j fi, new[j]? = some fi →
          filterItem d fuel (i + j) (r.drop (sizeOfFilterInfo * j))
            = some (.ok (fi, r.drop (sizeOfFilterInfo * (j + 1)))) := by
  intro k
  induction k with
  | zero =>
    intro i r acc out h
    simp only [filterLoop, Option.some.injEq, Except.ok.injEq] at h
    exact ⟨[], by simp [h], rfl, by simp, by simp⟩
  | succ k ih =>
    intro i r acc out h
    simp only [filterLoop] at h
    split at h
    · cases h
    · cases h
    · rename_i fi rest hitem
      obtain ⟨hlen, hrest, -⟩ := filterItem_ok d fuel i r fi rest hitem
      obtain ⟨new, hout, hnl, hrl, hitems⟩ := ih (i + 1) rest (acc ++ [fi]) out h
      subst hrest
      refine ⟨fi :: new, by simp [hout], by simp [hnl], ?_, ?_⟩
      · rw [List.length_drop] at hrl
        rw [Nat.succ_mul]; omega
      · intro j fj hj
        cases j with
        | zero =>
          simp only [List.getElem?_cons_zero, Option.some.injEq] at hj
          subst hj
          simpa using hitem
        | succ j =>
          simp only [List.getElem?_cons_succ] at hj
          have := hitems j fj hj
          rw [List.drop_drop, List.drop_drop] at this
          rw [show i + (j + 1) = i + 1 + j by omega,
            show sizeOfFilterInfo * (j + 1) = sizeOfFilterInfo + sizeOfFilterInfo * j by
              rw [Nat.mul_succ, Nat.add_comm],
            show sizeOfFilterInfo * (j + 1 + 1) = sizeOfFilterInfo + sizeOfFilterInfo * (j + 1) by
              rw [Nat.mul_succ, Nat.add_comm]]
          exact this

theorem modifierLoop_ok (d : DyldFile) (fuel : Nat) :
    ∀ k i r acc out, modifierLoop d fuel k i r acc = some (.ok out) →
      ∃ new, out = acc ++ new ∧ new.length = k ∧ k * sizeOfModifierInfo ≤ r.length ∧
        ∀ j mi, new[j]? = some mi →
          modifierItem d fuel (i + j) (r.drop (sizeOfModifierInfo * j))
            = some (.ok (mi, r.drop (sizeOfModifierInfo * (j + 1)))) := by
  intro k
  induction k with
  | zero =>
    intro i r acc out h
    simp only [modifierLoop, Option.some.injEq, Except.ok.injEq] at h
    exact ⟨[], by simp [h], rfl, by simp, by simp⟩
  | succ k ih =>
    intro i r acc out h
    simp only [modifierLoop] at h
    split at h
    · cases h
    · cases h
    · rename_i mi rest hitem
      obtain ⟨hlen, hrest, -⟩ := modifierItem_ok d fuel i r mi rest hitem
      obtain ⟨new, hout, hnl, hrl, hitems⟩ := ih (i + 1) rest (acc ++ [mi]) out h
      subst hrest
      refine ⟨mi :: new, by simp [hout], by simp [hnl], ?_, ?_⟩
      · rw [List.length_drop] at hrl
        rw [Nat.succ_mul]; omega
      · intro j mj hj
        cases j with
        | zero =>
          simp only [List.getElem?_cons_zero, Option.some.injEq] at hj
          subst hj
          simpa using hitem
        | succ j =>
          simp only [List.getElem?_cons_succ] at hj
          have := hitems j mj hj
          rw [List.drop_drop, List.drop_drop] at this
          rw [show i + (j + 1) = i + 1 + j by omega,
            show sizeOfModifierInfo * (j + 1) = sizeOfModifierInfo + sizeOfModifierInfo * j by
              rw [Nat.mul_succ, Nat.add_comm],
            show sizeOfModifierInfo * (j + 1 + 1)
                = sizeOfModifierInfo + sizeOfModifierInfo * (j + 1) by
              rw [Nat.mul_succ, Nat.add_comm]]
          exact this

theorem GetFilterInfo_ok (d : DyldFile) (fuel : Nat) (finfos : List FilterInfo)
    (h : GetFilterInfo d fuel = some (.ok finfos)) :
    ∃ libsand m addr uuid off dat,
      d.Image "libsandbox.1.dylib" = .ok libsand ∧ libsand.GetMacho = .ok m ∧
      m.FindSymbolAddress "_filter_info" = .ok addr ∧ d.GetOffset addr = .ok (uuid, off) ∧
      d.ReadBytesForUUID uuid off ((NUM_INFO_ENTRIES + 1) * sizeOfFilterInfo) = .ok dat ∧
      filterLoop d fuel (NUM_INFO_ENTRIES + 1) 0 dat [] = some (.ok finfos) := by
  unfold GetFilterInfo at h
  split at h
  · cases h
  · rename_i libsand h1
    split at h
    · cases h
    · rename_i m h2
      split at h
      · cases h
      · rename_i addr h3
        split at h
        · cases h
        · rename_i uuid off h4
          split at h
          · cases h
          · rename_i dat h5
            exact ⟨libsand, m, addr, uuid, off, dat, h1, h2, h3, h4, h5, h⟩

theorem GetModifierInfo_ok (d : DyldFile) (fuel : Nat) (minfos : List ModifierInfo)
    (h : GetModifierInfo d fuel = some (.ok minfos)) :
    ∃ libsand m addr uuid off dat,
      d.Image "libsandbox.1.dylib" = .ok libsand ∧ libsand.GetMacho = .ok m ∧
      m.FindSymbolAddress "_modifier_info" = .ok addr ∧ d.GetOffset addr = .ok (uuid, off) ∧
      d.ReadBytesForUUID uuid off (SB_MODIFIER_COUNT * sizeOfModifierInfo) = .ok dat ∧
      modifierLoop d fuel SB_MODIFIER_COUNT 0 dat [] = some (.ok minfos) := by
  unfold GetModifierInfo at h
  split at h
  · cases h
  · rename_i libsand h1
    split at h
    · cases h
    · rename_i m h2
      split at h
      · cases h
      · rename_i addr h3
        split at h
        · cases h
        · rename_i uuid off h4
          split at h
          · cases h
          · rename_i dat h5
            exact ⟨libsand, m, addr, uuid, off, dat, h1, h2, h3, h4, h5, h⟩

theorem namesLoop_ok (d : DyldFile) :
    ∀ addrs acc out, namesLoop d addrs acc = .ok out →
      ∃ new, out = acc ++ new ∧ new.length = addrs.length ∧
        ∀ (j : Nat) (a : Nat), addrs[j]? = some a →
          ∃ n, new[j]? = some n ∧ d.GetCString (d.SlidePointer a) = .ok n := by
  intro addrs
  induction addrs with
  | nil =>
    intro acc out h
    simp only [namesLoop, Except.ok.injEq] at h
    exact ⟨[], by simp [h], rfl, by simp⟩
  | cons a rest ih =>
    intro acc out h
    simp only [namesLoop] at h
    cases hs : d.GetCString (d.SlidePointer a) with
    | error e => simp [hs] at h
    | ok name =>
      simp only [hs] at h
      obtain ⟨new, hout, hlen, hitems⟩ := ih (acc ++ [name]) out h
      refine ⟨name :: new, by simp [hout], by simp [hlen], ?_⟩
      intro j b hj
      cases j with
      | zero =>
        simp only [List.getElem?_cons_zero, Option.some.injEq] at hj
        subst hj
        exact ⟨name, by simp, hs⟩
      | succ j =>
        simp only [List.getElem?_cons_succ] at hj
        obtain ⟨n, hn, hg⟩ := hitems j b hj
        exact ⟨n, by simpa using hn, hg⟩

theorem namesLoop_of_all (d : DyldFile) :
    ∀ addrs names acc, names.length = addrs.length →
      (∀ (j : Nat) (a : Nat), addrs[j]? = some a →
        ∃ n, names[j]? = some n ∧ d.GetCString (d.SlidePointer a) = .ok n) →
      namesLoop d addrs acc = .ok (acc ++ names) := by
  intro addrs
  induction addrs with
  | nil =>
    intro names acc hlen _
    have : names = [] := List.length_eq_zero.mp (by simpa using hlen)
    simp [namesLoop, this]
  | cons a rest ih =>
    intro names acc hlen hitems
    cases names with
    | nil => simp at hlen
    | cons n names =>
      obtain ⟨n2, hn2, hg⟩ := hitems 0 a (by simp)
      simp only [List.getElem?_cons_zero, Option.some.injEq] at hn2
      subst hn2
      simp only [namesLoop, hg]
      rw [ih names (acc ++ [n]) (by simpa using hlen)]
      · simp
      · intro j b hj
        have := hitems (j + 1) b (by simpa using hj)
        simpa using this

theorem readUnknown1_ok (d : DyldFile) (count unknownAddr v : Nat)
    (h : readUnknown1 d count unknownAddr = .ok v) :
    (unknownAddr = 0 → v = 0) ∧
    (unknownAddr ≠ 0 → ∃ uuid off dat,
      d.GetOffset (d.SlidePointer unknownAddr) = .ok (uuid, off) ∧
      d.ReadBytesForUUID uuid off (count * 4) = .ok dat ∧ 4 ≤ dat.length ∧
      v = leUint (dat.take 4)) := by
  unfold readUnknown1 at h
  by_cases h0 : unknownAddr = 0
  · simp only [h0, ne_eq, not_true_eq_false, if_false, Except.ok.injEq] at h
    exact ⟨fun _ => h.symm, fun hne => absurd h0 hne⟩
  · simp only [h0, ne_eq, not_false_eq_true, if_true] at h
    refine ⟨fun hz => absurd hz h0, fun _ => ?_⟩
    cases h1 : d.GetOffset (d.SlidePointer unknownAddr) with
    | error e => simp [h1] at h
    | ok p =>
      obtain ⟨uuid, off⟩ := p
      simp only [h1] at h
      cases h2 : d.ReadBytesForUUID uuid off (count * 4) with
      | error e => simp [h2] at h
      | ok dat =>
        simp only [h2] at h
        cases h3 : readFull dat 4 with
        | error e => simp [h3] at h
        | ok q =>
          obtain ⟨bs, rest⟩ := q
          simp only [h3, Except.ok.injEq] at h
          obtain ⟨hlen, hbs, -⟩ := readFull_ok _ _ _ _ h3
          exact ⟨uuid, off, dat, rfl, h2, hlen, by rw [← h, hbs]⟩

theorem operationItem_ok (d : DyldFile) (fuel : Nat) (opNames : List String) (idx : Nat)
    (oi : operationInfo) (oinfo : OperationInfo)
    (h : operationItem d fuel opNames idx oi = some (.ok oinfo)) :
    oinfo.ID = (idx : Int) ∧ oinfo.Name = opNames.getD idx "" ∧
      oinfo.Version = oi.Version ∧ oinfo.JumpTargetOperation = oi.JumpTargetOperation ∧
      oinfo.Unknown2 = oi.Unknown2 ∧ oinfo.CategoriesAddr = oi.CategoriesAddr ∧
      oinfo.ModifiersAddr = oi.ModifiersAddr ∧ oinfo.UnknownAddr = oi.UnknownAddr ∧
      (oinfo.CategoriesAddr = 0 → oinfo.Categories = []) ∧
      (oinfo.CategoriesAddr ≠ 0 →
        sentinelLoop d "category" oinfo.CategoriesAddr fuel 0 [] = some (.ok oinfo.Categories)) ∧
      (oinfo.ModifiersAddr = 0 → oinfo.Modifiers = []) ∧
      (oinfo.ModifiersAddr ≠ 0 →
        sentinelLoop d "modifier" oinfo.ModifiersAddr fuel 0 [] = some (.ok oinfo.Modifiers)) ∧
      readUnknown1 d opNames.length oinfo.UnknownAddr = .ok oinfo.Unknown1 := by
  unfold operationItem at h
  split at h
  · cases h
  · cases h
  · rename_i cats hcats
    split at h
    · cases h
    · cases h
    · rename_i mods hmods
      split at h
      · cases h
      · rename_i unknown1 hunk
        simp only [Option.some.injEq, Except.ok.injEq] at h
        subst h
        refine ⟨rfl, rfl, rfl, rfl, rfl, rfl, rfl, rfl, ?_, ?_, ?_, ?_, hunk⟩
        · intro h0
          have h0b : oi.CategoriesAddr = 0 := h0
          simp only [h0b, ne_eq, not_true_eq_false, if_false, Option.some.injEq,
            Except.ok.injEq] at hcats
          exact hcats.symm
        · intro h0
          have h0b : oi.CategoriesAddr ≠ 0 := h0
          simp only [h0b, ne_eq, not_false_eq_true, if_true] at hcats
          exact hcats
        · intro h0
          have h0b : oi.ModifiersAddr = 0 := h0
          simp only [h0b, ne_eq, not_true_eq_false, if_false, Option.some.injEq,
            Except.ok.injEq] at hmods
          exact hmods.symm
        · intro h0
          have h0b : oi.ModifiersAddr ≠ 0 := h0
          simp only [h0b, ne_eq, not_false_eq_true, if_true] at hmods
          exact hmods

theorem operationLoop_ok (d : DyldFile) (fuel : Nat) (opNames : List String) :
    ∀ ois idx acc out, operationLoop d fuel opNames ois idx acc = some (.ok out) →
      ∃ new, out = acc ++ new ∧ new.length = ois.length ∧
        ∀ j oinfo, new[j]? = some oinfo →
          ∃ oi, ois[j]? = some oi ∧
            operationItem d fuel opNames (idx + j) oi = some (.ok oinfo) := by
  intro ois
  induction ois with
  | nil =>
    intro idx acc out h
    simp only [operationLoop, Option.some.injEq, Except.ok.injEq] at h
    exact ⟨[], by simp [h], rfl, by simp⟩
  | cons oi rest ih =>
    intro idx acc out h
    simp only [operationLoop] at h
    split at h
    · cases h
    · cases h
    · rename_i oinfo hitem
      obtain ⟨new, hout, hlen, hitems⟩ := ih (idx + 1) (acc ++ [oinfo]) out h
      refine ⟨oinfo :: new, by simp [hout], by simp [hlen], ?_⟩
      intro j oj hj
      cases j with
      | zero =>
        simp only [List.getElem?_cons_zero, Option.some.injEq] at hj
        subst hj
        exact ⟨oi, by simp, by simpa using hitem⟩
      | succ j =>
        simp only [List.getElem?_cons_succ] at hj
        obtain ⟨oi2, h2, h3⟩ := hitems j oj hj
        exact ⟨oi2, by simpa using h2, by
          rw [show idx + (j + 1) = idx + 1 + j by omega]; exact h3⟩

theorem GetOperationInfo_ok (d : DyldFile) (fuel : Nat) (opInfos : List OperationInfo)
    (h : GetOperationInfo d fuel = some (.ok opInfos)) :
    ∃ libsand m namesAddr uuid off infoAddr dat opNames uuid2 off2 dat2,
      d.Image "libsandbox.1.dylib" = .ok libsand ∧ libsand.GetMacho = .ok m ∧
      m.FindSymbolAddress "_operation_names" = .ok namesAddr ∧
      d.GetOffset namesAddr = .ok (uuid, off) ∧
      m.FindSymbolAddress "_operation_info" = .ok infoAddr ∧
      d.ReadBytesForUUID uuid off ((infoAddr + U64 - namesAddr) % U64) = .ok dat ∧
      namesLoop d ((List.range (dat.length / 8)).map
        (fun k => fieldAt (dat.take (dat.length / 8 * 8)) (8 * k) 8)) [] = .ok opNames ∧
      d.GetOffset infoAddr = .ok (uuid2, off2) ∧
      d.ReadBytesForUUID uuid2 off2 (opNames.length * sizeOfOperationInfo) = .ok dat2 ∧
      opNames.length * sizeOfOperationInfo ≤ dat2.length ∧
      operationLoop d fuel opNames ((List.range opNames.length).map (fun k =>
        decodeOperationInfo ((dat2.take (opNames.length * sizeOfOperationInfo)).drop
          (sizeOfOperationInfo * k)))) 0 [] = some (.ok opInfos) := by
  unfold GetOperationInfo at h
  split at h
  · cases h
  · rename_i libsand h1
    split at h
    · cases h
    · rename_i m h2
      split at h
      · cases h
      · rename_i namesAddr h3
        split at h
        · cases h
        · rename_i uuid off h4
          split at h
          · cases h
          · rename_i infoAddr h5
            split at h
            · cases h
            · rename_i dat h6
              split at h
              · cases h
              · rename_i bs rest1 h7
                obtain ⟨-, hbs, -⟩ := readFull_ok _ _ _ _ h7
                subst hbs
                split at h
                · cases h
                · rename_i opNames h8
                  split at h
                  · cases h
                  · rename_i uuid2 off2 h9
                    split at h
                    · cases h
                    · rename_i dat2 h10
                      split at h
                      · cases h
                      · rename_i bs2 rest2 h11
                        obtain ⟨hlen2, hbs2, -⟩ := readFull_ok _ _ _ _ h11
                        subst hbs2
                        exact ⟨libsand, m, namesAddr, uuid, off, infoAddr, dat, opNames,
                          uuid2, off2, dat2, h1, h2, h3, h4, h5, h6, h8, h9, h10, hlen2, h⟩

theorem fieldAt_take (bs : List Nat) (n off width : Nat) (h : off + width ≤ n) :
    fieldAt (bs.take n) off width = fieldAt bs off width := by
  unfold fieldAt
  rw [List.drop_take, List.take_take, Nat.min_eq_left (by omega)]

theorem mem_getElem? {α : Type} (l : List α) (a : α) (h : a ∈ l) :
    ∃ i : Nat, l[i]? = some a := by
  obtain ⟨i, hi, he⟩ := List.getElem_of_mem h
  exact ⟨i, by rw [List.getElem?_eq_getElem hi, he]⟩

theorem GetOperationInfo_spec (d : DyldFile) (fuel : Nat) (opInfos : List OperationInfo)
    (h : GetOperationInfo d fuel = some (.ok opInfos)) :
    ∃ libsand m namesAddr uuid off infoAddr dat uuid2 off2 dat2,
      d.Image "libsandbox.1.dylib" = .ok libsand ∧ libsand.GetMacho = .ok m ∧
      m.FindSymbolAddress "_operation_names" = .ok namesAddr ∧
      d.GetOffset namesAddr = .ok (uuid, off) ∧
      m.FindSymbolAddress "_operation_info" = .ok infoAddr ∧
      d.ReadBytesForUUID uuid off ((infoAddr + U64 - namesAddr) % U64) = .ok dat ∧
      d.GetOffset infoAddr = .ok (uuid2, off2) ∧
      d.ReadBytesForUUID uuid2 off2 (opInfos.length * sizeOfOperationInfo) = .ok dat2 ∧
      opInfos.length * sizeOfOperationInfo ≤ dat2.length ∧
      opInfos.length = dat.length / 8 ∧
      ∀ (i : Nat) (oinfo : OperationInfo), opInfos[i]? = some oinfo →
        i < dat.length / 8 ∧
        d.GetCString (d.SlidePointer (fieldAt dat (8 * i) 8)) = .ok oinfo.Name ∧
        ∃ oi, operationItem d fuel (List.map OperationInfo.Name opInfos) i oi
          = some (.ok oinfo) := by
  obtain ⟨libsand, m, namesAddr, uuid, off, infoAddr, dat, opNames, uuid2, off2, dat2,
    h1, h2, h3, h4, h5, h6, h7, h8, h9, h10, h11⟩ := GetOperationInfo_ok d fuel opInfos h
  obtain ⟨names, hn1, hn2, hn3⟩ := namesLoop_ok d _ _ _ h7
  simp only [List.nil_append] at hn1
  subst hn1
  simp only [List.length_map, List.length_range] at hn2
  obtain ⟨new, ho1, ho2, ho3⟩ := operationLoop_ok d fuel opNames _ _ _ _ h11
  simp only [List.nil_append] at ho1
  subst ho1
  simp only [List.length_map, List.length_range] at ho2
  have hname : ∀ (i : Nat) (oinfo : OperationInfo), opInfos[i]? = some oinfo →
      opNames[i]? = some oinfo.Name := by
    intro i oinfo hi
    obtain ⟨oi, -, hitem⟩ := ho3 i oinfo hi
    have hN := (operationItem_ok d fuel opNames _ oi oinfo hitem).2.1
    have hlt : i < opNames.length := by
      have := (List.getElem?_eq_some_iff.mp hi).1
      omega
    rw [Nat.zero_add] at hN
    rw [hN, List.getD_eq_getElem?_getD, List.getElem?_eq_getElem hlt]
    simp
  have hnames : List.map OperationInfo.Name opInfos = opNames := by
    apply List.ext_getElem?
    intro i
    rw [List.getElem?_map]
    cases hi : opInfos[i]? with
    | none =>
      have : opInfos.length ≤ i := List.getElem?_eq_none_iff.mp hi
      simp only [Option.map_none']
      exact (List.getElem?_eq_none (by omega)).symm
    | some oinfo => simp [hname i oinfo hi]
  refine ⟨libsand, m, namesAddr, uuid, off, infoAddr, dat, uuid2, off2, dat2,
    h1, h2, h3, h4, h5, h6, h8, by rw [ho2]; exact h9, by rw [ho2]; exact h10,
    by rw [ho2, hn2], ?_⟩
  intro i oinfo hi
  have hlt : i < opInfos.length := (List.getElem?_eq_some_iff.mp hi).1
  have hlt2 : i < dat.length / 8 := by omega
  refine ⟨hlt2, ?_, ?_⟩
  · have hmap : ((List.range (dat.length / 8)).map
        (fun k => fieldAt (dat.take (dat.length / 8 * 8)) (8 * k) 8))[i]?
        = some (fieldAt dat (8 * i) 8) := by
      rw [List.getElem?_map, List.getElem?_range hlt2]
      simp only [Option.map_some', Option.some.injEq]
      exact fieldAt_take _ _ _ _ (by omega)
    obtain ⟨n, hn, hg⟩ := hn3 i _ hmap
    rw [hname i oinfo hi] at hn
    simp only [Option.some.injEq] at hn
    rw [hn]; exact hg
  · obtain ⟨oi, -, hitem⟩ := ho3 i oinfo hi
    rw [Nat.zero_add] at hitem
    exact ⟨oi, by rw [hnames]; exact hitem⟩

/-! ## The alias chain -/

theorem aliasSlot_eq (d : DyldFile) (aliasesAddr i : Nat)
    (h : d.SlidePointer aliasesAddr + 16 * i < U64) :
    aliasSlot d aliasesAddr i = d.SlidePointer aliasesAddr + 16 * i := by
  unfold aliasSlot sizeOfAlias
  rw [Nat.mod_eq_of_lt (show 16 * i < U64 by omega), Nat.mod_eq_of_lt h]

theorem filterItem_no_aliases (d d2 : DyldFile) (fuel i : Nat) (r : List Nat)
    (hc : d2.GetCString = d.GetCString) (hs : d2.SlidePointer = d.SlidePointer)
    (hz : (decodeFilterInfo i (r.take sizeOfFilterInfo)).AliasesAddr = 0) :
    filterItem d2 0 i r = filterItem d fuel i r := by
  unfold filterItem
  rw [hc, hs]
  cases h1 : readFull r sizeOfFilterInfo with
  | error e => rfl
  | ok p =>
    obtain ⟨bs, rest⟩ := p
    obtain ⟨-, hbs, -⟩ := readFull_ok _ _ _ _ h1
    subst hbs
    simp [hz]

theorem modifierItem_no_aliases (d d2 : DyldFile) (fuel i : Nat) (r : List Nat)
    (hc : d2.GetCString = d.GetCString) (hs : d2.SlidePointer = d.SlidePointer)
    (hz : (decodeModifierInfo i (r.take sizeOfModifierInfo)).AliasesAddr = 0) :
    modifierItem d2 0 i r = modifierItem d fuel i r := by
  unfold modifierItem
  rw [hc, hs]
  cases h1 : readFull r sizeOfModifierInfo with
  | error e => rfl
  | ok p =>
    obtain ⟨bs, rest⟩ := p
    obtain ⟨-, hbs, -⟩ := readFull_ok _ _ _ _ h1
    subst hbs
    simp [hz]

/-- C11: when the alias walk of a filter record or of a modifier record succeeds with the
sequence `as`, then `as` is the run of consecutive 16-byte alias records that starts at
`slide(AliasesAddr)`: the alias of index `i` is the record read at
`slide(AliasesAddr) + 16 * i` (in `uint64` arithmetic), it has a non-zero name pointer and
its `Name` is the C string at the slid name pointer; the record of index `len(as)` is
readable and has a zero name pointer, so it is the first terminator and is not in `as`.
A record whose alias pointer is zero gets the empty sequence, with no iteration of the
walk and whatever `GetOffset` and `ReadBytesForUUID` would answer. -/
theorem alias_chain_run (d : DyldFile) (aliasesAddr fuel : Nat) (as : List Alias)
    (h : filterAliasLoop d aliasesAddr fuel 0 [] = some (.ok as) ∨
      modifierAliasLoop d aliasesAddr fuel 0 [] = some (.ok as)) :
    (∀ (i : Nat) (a : Alias), as[i]? = some a →
      ∃ raw, aliasRecordAt d (aliasSlot d aliasesAddr i) = some raw ∧
        a = { raw with Name := a.Name } ∧ a.NameAddr ≠ 0 ∧
        d.GetCString (d.SlidePointer a.NameAddr) = .ok a.Name) ∧
    (∃ raw, aliasRecordAt d (aliasSlot d aliasesAddr as.length) = some raw ∧
      raw.NameAddr = 0) ∧
    (∀ i, d.SlidePointer aliasesAddr + 16 * i < U64 →
      aliasSlot d aliasesAddr i = d.SlidePointer aliasesAddr + 16 * i) ∧
    (∀ (d2 : DyldFile) (i : Nat) (r : List Nat),
      d2.GetCString = d.GetCString → d2.SlidePointer = d.SlidePointer →
      (decodeFilterInfo i (r.take sizeOfFilterInfo)).AliasesAddr = 0 →
      filterItem d2 0 i r = filterItem d fuel i r ∧
      ∀ fi rest, filterItem d fuel i r = some (.ok (fi, rest)) → fi.Aliases = []) ∧
    (∀ (d2 : DyldFile) (i : Nat) (r : List Nat),
      d2.GetCString = d.GetCString → d2.SlidePointer = d.SlidePointer →
      (decodeModifierInfo i (r.take sizeOfModifierInfo)).AliasesAddr = 0 →
      modifierItem d2 0 i r = modifierItem d fuel i r ∧
      ∀ mi rest, modifierItem d fuel i r = some (.ok (mi, rest)) → mi.Aliases = []) := by
  have hf : filterAliasLoop d aliasesAddr fuel 0 [] = some (.ok as) := by
    rcases h with h | h
    · exact h
    · rw [← modifierAliasLoop_eq_filter]; exact h
  obtain ⟨-, hitems, hterm⟩ := (filterAliasLoop_ok_iff d aliasesAddr fuel as).mp hf
  refine ⟨?_, terminatorAt_true d aliasesAddr as.length hterm,
    fun i hi => aliasSlot_eq d aliasesAddr i hi, ?_, ?_⟩
  · intro i a hi
    have hlt : i < as.length := (List.getElem?_eq_some_iff.mp hi).1
    exact aliasAt_some d aliasesAddr i a (by rw [hitems i hlt, hi])
  · intro d2 i r hc hs hz
    refine ⟨filterItem_no_aliases d d2 fuel i r hc hs hz, ?_⟩
    intro fi rest hfi
    obtain ⟨-, -, hdec, -, -, -, -, hal, -⟩ := filterItem_ok d fuel i r fi rest hfi
    apply hal
    rw [hdec]; exact hz
  · intro d2 i r hc hs hz
    refine ⟨modifierItem_no_aliases d d2 fuel i r hc hs hz, ?_⟩
    intro mi rest hmi
    obtain ⟨-, -, hdec, -, -, hal, -⟩ := modifierItem_ok d fuel i r mi rest hmi
    apply hal
    rw [hdec]; exact hz

/-- The alias chain at `0x5000` of the sample image holds "root" and "wheel", and the
record after them is the terminator. -/
theorem alias_chain_run_witness :
    filterAliasLoop sampleFile 0x5000 3 0 [] = some (.ok sampleAliases) ∧
      (∃ raw, aliasRecordAt sampleFile (aliasSlot sampleFile 0x5000 sampleAliases.length)
        = some raw ∧ raw.NameAddr = 0) :=
  ⟨eq_of_okValue _ _ (by decide),
    (alias_chain_run sampleFile 0x5000 3 sampleAliases
      (Or.inl (eq_of_okValue _ _ (by decide)))).2.1⟩

/-! ## The filter table -/

theorem GetFilterInfo_items (d : DyldFile) (fuel : Nat) (finfos : List FilterInfo)
    (h : GetFilterInfo d fuel = some (.ok finfos)) :
    finfos.length = NUM_INFO_ENTRIES + 1 ∧
    ∃ libsand m addr uuid off dat,
      d.Image "libsandbox.1.dylib" = .ok libsand ∧ libsand.GetMacho = .ok m ∧
      m.FindSymbolAddress "_filter_info" = .ok addr ∧ d.GetOffset addr = .ok (uuid, off) ∧
      d.ReadBytesForUUID uuid off ((NUM_INFO_ENTRIES + 1) * sizeOfFilterInfo) = .ok dat ∧
      (NUM_INFO_ENTRIES + 1) * sizeOfFilterInfo ≤ dat.length ∧
      ∀ (i : Nat) (fi : FilterInfo), finfos[i]? = some fi →
        filterItem d fuel i (dat.drop (sizeOfFilterInfo * i))
          = some (.ok (fi, dat.drop (sizeOfFilterInfo * (i + 1)))) := by
  obtain ⟨libsand, m, addr, uuid, off, dat, h1, h2, h3, h4, h5, h6⟩ :=
    GetFilterInfo_ok d fuel finfos h
  obtain ⟨new, hout, hlen, hdat, hitems⟩ := filterLoop_ok d fuel _ _ _ _ _ h6
  simp only [List.nil_append] at hout
  subst hout
  refine ⟨hlen, libsand, m, addr, uuid, off, dat, h1, h2, h3, h4, h5, hdat, ?_⟩
  intro i fi hi
  have := hitems i fi hi
  rwa [Nat.zero_add] at this

/-- C12: whenever `GetFilterInfo` succeeds it returns exactly `0x56` records, the row past
the last index included, and the record at position `i` has `ID = i`; the identifiers
are exactly the numbers `0` to `0x55`. -/
theorem filter_table_ids (d : DyldFile) (fuel : Nat) (finfos : List FilterInfo)
    (h : GetFilterInfo d fuel = some (.ok finfos)) :
    finfos.length = 0x56 ∧
    (∀ (i : Nat) (fi : FilterInfo), finfos[i]? = some fi → fi.ID = (i : Int)) ∧
    (∀ fi ∈ finfos, 0 ≤ fi.ID ∧ fi.ID ≤ 0x55) ∧
    (∀ k : Nat, k ≤ 0x55 → ∃ fi ∈ finfos, fi.ID = (k : Int)) := by
  obtain ⟨hlen, -, -, -, -, -, dat, -, -, -, -, -, -, hitems⟩ := GetFilterInfo_items d fuel finfos h
  have hid : ∀ (i : Nat) (fi : FilterInfo), finfos[i]? = some fi → fi.ID = (i : Int) := by
    intro i fi hi
    obtain ⟨-, -, hdec, -⟩ := filterItem_ok d fuel i _ fi _ (hitems i fi hi)
    rw [hdec]; rfl
  have hlen2 : finfos.length = 0x56 := hlen
  refine ⟨hlen2, hid, ?_, ?_⟩
  · intro fi hfi
    obtain ⟨i, hi⟩ := mem_getElem? finfos fi hfi
    have hlt : i < finfos.length := (List.getElem?_eq_some_iff.mp hi).1
    rw [hid i fi hi]
    omega
  · intro k hk
    have hlt : k < finfos.length := by omega
    exact ⟨finfos[k], List.getElem_mem hlt, hid k _ (List.getElem?_eq_getElem hlt)⟩

/-- The filter table of the sample image has `0x56` records numbered in order. -/
theorem filter_table_ids_witness :
    GetFilterInfo sampleFile 3 = some (.ok sampleFilters) ∧ sampleFilters.length = 0x56 ∧
      (∀ (i : Nat) (fi : FilterInfo), sampleFilters[i]? = some fi → fi.ID = (i : Int)) :=
  ⟨eq_of_okValue _ _ (by decide!),
    (filter_table_ids sampleFile 3 sampleFilters (eq_of_okValue _ _ (by decide!))).1,
    (filter_table_ids sampleFile 3 sampleFilters (eq_of_okValue _ _ (by decide!))).2.1⟩

/-- C13, as stated, fails: the second filter record of the sample image has a non-zero
alias pointer, `0x5040`, whose chain starts with the terminator, and its `Aliases` is
empty. -/
theorem aliases_empty_iff_counterexample :
    GetFilterInfo sampleFile 3 = some (.ok sampleFilters) ∧
      ¬ ∀ fi ∈ sampleFilters, (fi.Aliases = [] ↔ fi.AliasesAddr = 0) := by
  refine ⟨eq_of_okValue _ _ (by decide!), ?_⟩
  intro hall
  have hmem : sampleFilter1 ∈ sampleFilters := by
    simp [sampleFilters]
  have := (hall _ hmem).mp rfl
  simp [sampleFilter1] at this

/-- C13, amended: for every record of a successful `GetFilterInfo`, a zero alias pointer
gives an empty `Aliases`, and `Aliases` is empty exactly when the alias pointer is zero or
the first alias record at `slide(AliasesAddr)` is the terminator (readable, with a zero
name pointer). -/
theorem aliases_empty_iff (d : DyldFile) (fuel : Nat) (finfos : List FilterInfo)
    (h : GetFilterInfo d fuel = some (.ok finfos)) :
    ∀ fi ∈ finfos, (fi.AliasesAddr = 0 → fi.Aliases = []) ∧
      (fi.Aliases = [] ↔ (fi.AliasesAddr = 0 ∨ terminatorAt d fi.AliasesAddr 0 = true)) := by
  obtain ⟨-, -, -, -, -, -, dat, -, -, -, -, -, -, hitems⟩ := GetFilterInfo_items d fuel finfos h
  intro fi hfi
  obtain ⟨i, hi⟩ := mem_getElem? finfos fi hfi
  obtain ⟨-, -, -, -, -, -, -, hz, hnz⟩ := filterItem_ok d fuel i _ fi _ (hitems i fi hi)
  refine ⟨hz, ?_, ?_⟩
  · intro hempty
    by_cases h0 : fi.AliasesAddr = 0
    · exact Or.inl h0
    · right
      have := ((filterAliasLoop_ok_iff d fi.AliasesAddr fuel fi.Aliases).mp (hnz h0)).2.2
      rwa [hempty] at this
  · rintro (h0 | ht)
    · exact hz h0
    · by_cases h0 : fi.AliasesAddr = 0
      · exact hz h0
      · have hrun := (filterAliasLoop_ok_iff d fi.AliasesAddr fuel fi.Aliases).mp (hnz h0)
        cases hal : fi.Aliases with
        | nil => rfl
        | cons a rest =>
          have h1 := hrun.2.1 0 (by rw [hal]; simp)
          rw [(filterAliasLoop_chain d fi.AliasesAddr).excl 0 ht, hal] at h1
          simp at h1

/-- In the sample image the first filter has aliases and a non-zero alias pointer, the
second an empty chain behind a non-zero alias pointer. -/
theorem aliases_empty_iff_witness :
    GetFilterInfo sampleFile 3 = some (.ok sampleFilters) ∧
      ∀ fi ∈ sampleFilters, (fi.AliasesAddr = 0 → fi.Aliases = []) ∧
        (fi.Aliases = [] ↔
          (fi.AliasesAddr = 0 ∨ terminatorAt sampleFile fi.AliasesAddr 0 = true)) :=
  ⟨eq_of_okValue _ _ (by decide!),
    aliases_empty_iff sampleFile 3 sampleFilters (eq_of_okValue _ _ (by decide!))⟩

/-! ## The modifier table -/

/-- C14: whenever `GetModifierInfo` succeeds it returns exactly `0x15` records, with no
extra row; the record at position `i` has `ID = i`, its fields are those of the `i`-th
32-byte record of the table buffer (`ActionMask` the little-endian 32-bit field at
offset 8, `ActionFlag` the one at offset 12, `NameAddr` the pointer at offset 0), and its
`Name` is empty when `NameAddr` is zero and the C string at `slide(NameAddr)` otherwise. -/
theorem modifier_table (d : DyldFile) (fuel : Nat) (minfos : List ModifierInfo)
    (h : GetModifierInfo d fuel = some (.ok minfos)) :
    minfos.length = 0x15 ∧
    ∃ libsand m addr uuid off dat,
      d.Image "libsandbox.1.dylib" = .ok libsand ∧ libsand.GetMacho = .ok m ∧
      m.FindSymbolAddress "_modifier_info" = .ok addr ∧ d.GetOffset addr = .ok (uuid, off) ∧
      d.ReadBytesForUUID uuid off (0x15 * 32) = .ok dat ∧ 0x15 * 32 ≤ dat.length ∧
      ∀ (i : Nat) (mi : ModifierInfo), minfos[i]? = some mi →
        mi.ID = (i : Int) ∧
        mi.NameAddr = leUint ((((dat.drop (32 * i)).take 32).drop 0).take 8) ∧
        mi.ActionMask = leUint ((((dat.drop (32 * i)).take 32).drop 8).take 4) ∧
        mi.ActionFlag = leUint ((((dat.drop (32 * i)).take 32).drop 12).take 4) ∧
        (mi.NameAddr = 0 → mi.Name = "") ∧
        (mi.NameAddr ≠ 0 → d.GetCString (d.SlidePointer mi.NameAddr) = .ok mi.Name) := by
  obtain ⟨libsand, m, addr, uuid, off, dat, h1, h2, h3, h4, h5, h6⟩ :=
    GetModifierInfo_ok d fuel minfos h
  obtain ⟨new, hout, hlen, hdat, hitems⟩ := modifierLoop_ok d fuel _ _ _ _ _ h6
  simp only [List.nil_append] at hout
  subst hout
  refine ⟨hlen, libsand, m, addr, uuid, off, dat, h1, h2, h3, h4, h5, hdat, ?_⟩
  intro i mi hi
  have hitem := hitems i mi hi
  rw [Nat.zero_add] at hitem
  obtain ⟨-, -, hdec, hn0, hn1, -, -⟩ := modifierItem_ok d fuel i _ mi _ hitem
  refine ⟨?_, ?_, ?_, ?_, hn0, hn1⟩
  · rw [hdec]; rfl
  · rw [hdec]; rfl
  · rw [hdec]; rfl
  · rw [hdec]; rfl

/-- The modifier table of the sample image has `0x15` records; the first is "report"
with action mask 1 and action flag 2. -/
theorem modifier_table_witness :
    GetModifierInfo sampleFile 3 = some (.ok sampleModifiers) ∧ sampleModifiers.length = 0x15 :=
  ⟨eq_of_okValue _ _ (by decide!),
    (modifier_table sampleFile 3 sampleModifiers (eq_of_okValue _ _ (by decide!))).1⟩

/-! ## The operation table -/

theorem sampleRead_length (off n : Nat) : (sampleRead off n).length = n := by
  unfold sampleRead
  split
  · rename_i s _
    rw [List.length_append, List.length_replicate]
    have := List.length_take_le n (List.drop (off - s.1) s.2)
    omega
  · simp

theorem stringAt_some (d : DyldFile) (arrayAddr i : Nat) (s : String)
    (h : stringAt d arrayAddr i = some s) :
    ∃ p, d.ReadPointerAtAddress (pointerSlot d arrayAddr i) = .ok p ∧ p ≠ 0 ∧
      d.GetCString (d.SlidePointer p) = .ok s := by
  unfold stringAt at h
  cases hr : d.ReadPointerAtAddress (pointerSlot d arrayAddr i) with
  | error e => simp [hr] at h
  | ok p =>
    simp only [hr] at h
    by_cases h0 : p = 0
    · simp [h0] at h
    · simp only [h0, if_false] at h
      cases hs : d.GetCString (d.SlidePointer p) with
      | error e => simp [hs] at h
      | ok s2 =>
        simp only [hs, Option.some.injEq] at h
        subst h
        exact ⟨p, rfl, h0, hs⟩

theorem zeroSlotAt_true (d : DyldFile) (arrayAddr i : Nat)
    (h : zeroSlotAt d arrayAddr i = true) :
    d.ReadPointerAtAddress (pointerSlot d arrayAddr i) = .ok 0 := by
  unfold zeroSlotAt at h
  cases hr : d.ReadPointerAtAddress (pointerSlot d arrayAddr i) with
  | error e => simp [hr] at h
  | ok p =>
    simp only [hr, decide_eq_true_eq] at h
    rw [h]

theorem pointerSlot_eq (d : DyldFile) (arrayAddr i : Nat)
    (h : d.SlidePointer arrayAddr + 8 * i < U64) :
    pointerSlot d arrayAddr i = d.SlidePointer arrayAddr + 8 * i := by
  unfold pointerSlot
  rw [Nat.mod_eq_of_lt (show 8 * i < U64 by omega), Nat.mod_eq_of_lt h]

theorem sentinel_run (d : DyldFile) (what : String) (arrayAddr fuel : Nat) (ss : List String)
    (h : sentinelLoop d what arrayAddr fuel 0 [] = some (.ok ss)) :
    (∀ (i : Nat) (s : String), ss[i]? = some s →
      ∃ p, d.ReadPointerAtAddress (pointerSlot d arrayAddr i) = .ok p ∧ p ≠ 0 ∧
        d.GetCString (d.SlidePointer p) = .ok s) ∧
    d.ReadPointerAtAddress (pointerSlot d arrayAddr ss.length) = .ok 0 := by
  obtain ⟨-, hitems, hterm⟩ := (sentinelLoop_ok_iff d what arrayAddr fuel ss).mp h
  refine ⟨?_, zeroSlotAt_true d arrayAddr ss.length hterm⟩
  intro i s hi
  have hlt : i < ss.length := (List.getElem?_eq_some_iff.mp hi).1
  exact stringAt_some d arrayAddr i s (by rw [hitems i hlt, hi])

/-- C16: for every operation record of a successful `GetOperationInfo` with a non-zero
categories (resp. modifiers) pointer, the list is read from the pointer-sized slots at
`slide(base)`, `slide(base) + 8`, ... (in `uint64` arithmetic): the string of index `i` is
the C string at the slid pointer of slot `i`, which is non-zero, and the slot of index
`len(list)` holds zero, so the walk stops at the first zero slot.  The walk returns a
list exactly when the list is made of the strings before the first zero slot, whatever
later slots hold; an array whose first slot is zero gives the empty list. -/
theorem sentinel_walk (d : DyldFile) (fuel : Nat) (opInfos : List OperationInfo)
    (h : GetOperationInfo d fuel = some (.ok opInfos)) :
    (∀ oinfo ∈ opInfos,
      (oinfo.CategoriesAddr ≠ 0 →
        (∀ (i : Nat) (s : String), oinfo.Categories[i]? = some s →
          ∃ p, d.ReadPointerAtAddress (pointerSlot d oinfo.CategoriesAddr i) = .ok p ∧ p ≠ 0 ∧
            d.GetCString (d.SlidePointer p) = .ok s) ∧
        d.ReadPointerAtAddress (pointerSlot d oinfo.CategoriesAddr oinfo.Categories.length)
          = .ok 0) ∧
      (oinfo.ModifiersAddr ≠ 0 →
        (∀ (i : Nat) (s : String), oinfo.Modifiers[i]? = some s →
          ∃ p, d.ReadPointerAtAddress (pointerSlot d oinfo.ModifiersAddr i) = .ok p ∧ p ≠ 0 ∧
            d.GetCString (d.SlidePointer p) = .ok s) ∧
        d.ReadPointerAtAddress (pointerSlot d oinfo.ModifiersAddr oinfo.Modifiers.length)
          = .ok 0)) ∧
    (∀ (what : String) (arrayAddr : Nat) (ss : List String),
      sentinelLoop d what arrayAddr fuel 0 [] = some (.ok ss) ↔
        ss.length < fuel ∧ (∀ i, i < ss.length → stringAt d arrayAddr i = ss[i]?) ∧
          zeroSlotAt d arrayAddr ss.length = true) ∧
    (∀ (what : String) (arrayAddr : Nat), zeroSlotAt d arrayAddr 0 = true → 0 < fuel →
      sentinelLoop d what arrayAddr fuel 0 [] = some (.ok [])) ∧
    (∀ arrayAddr i, d.SlidePointer arrayAddr + 8 * i < U64 →
      pointerSlot d arrayAddr i = d.SlidePointer arrayAddr + 8 * i) := by
  obtain ⟨-, -, -, -, -, -, dat, -, -, -, -, -, -, -, -, -, -, -, -, -, hitems⟩ :=
    GetOperationInfo_spec d fuel opInfos h
  refine ⟨?_, fun what arrayAddr ss => sentinelLoop_ok_iff d what arrayAddr fuel ss, ?_,
    fun arrayAddr i hi => pointerSlot_eq d arrayAddr i hi⟩
  · intro oinfo hmem
    obtain ⟨i, hi⟩ := mem_getElem? opInfos oinfo hmem
    obtain ⟨-, -, oi, hitem⟩ := hitems i oinfo hi
    obtain ⟨-, -, -, -, -, -, -, -, -, hc, -, hm, -⟩ := operationItem_ok d fuel _ i oi oinfo hitem
    exact ⟨fun h0 => sentinel_run d _ _ fuel _ (hc h0),
      fun h0 => sentinel_run d _ _ fuel _ (hm h0)⟩
  · intro what arrayAddr hz hfuel
    exact (sentinelLoop_ok_iff d what arrayAddr fuel []).mpr
      ⟨hfuel, fun i hi => absurd hi (by simp), hz⟩

/-- In the sample image the first operation has the one category "cat", read from the
slot before the zero slot. -/
theorem sentinel_walk_witness :
    GetOperationInfo sampleFile 3 = some (.ok [sampleOperation0, sampleOperation1]) ∧
      sentinelLoop sampleFile "category" 0x6000 3 0 [] = some (.ok ["cat"]) ∧
      ∀ (what : String) (arrayAddr : Nat), zeroSlotAt sampleFile arrayAddr 0 = true → 0 < 3 →
        sentinelLoop sampleFile what arrayAddr 3 0 [] = some (.ok []) :=
  ⟨eq_of_okValue _ _ (by decide!), eq_of_okValue _ _ (by decide),
    (sentinel_walk sampleFile 3 [sampleOperation0, sampleOperation1]
      (eq_of_okValue _ _ (by decide!))).2.2.1⟩

/-- C17, as stated, fails: with a zero in the first slot of the names array, the sample
image still yields two operations, the first named by the string at the slid null
pointer. -/
theorem names_zero_slot_counterexample :
    zeroSlotFile.ReadBytesForUUID 7 0x4000 16 = .ok (le64 0 ++ le64 0x138) ∧
      leUint (((le64 0 ++ le64 0x138).drop 0).take 8) = 0 ∧
      GetOperationInfo zeroSlotFile 3 = some (.ok [sampleOperationBase, sampleOperation1]) ∧
      ([sampleOperationBase, sampleOperation1].map OperationInfo.Name) = ["base", "file-read"] :=
  ⟨rfl, by decide, eq_of_okValue _ _ (by decide!), by decide⟩

/-- C17, amended: the walk of the operation-names array has no terminator: every slot,
zero or not, is slid and dereferenced and gives a name.  The names loop succeeds exactly
when every slot dereferences to a string, with one name per slot in order; and a
successful `GetOperationInfo` has one record per whole pointer of the names buffer, the
record at position `i` named by the string at the slid `i`-th pointer. -/
theorem names_table_flat (d : DyldFile) (fuel : Nat) :
    (∀ (addrs : List Nat) (names : List String),
      namesLoop d addrs [] = .ok names ↔
        names.length = addrs.length ∧
        ∀ (j : Nat) (a : Nat), addrs[j]? = some a →
          ∃ n, names[j]? = some n ∧ d.GetCString (d.SlidePointer a) = .ok n) ∧
    (∀ opInfos, GetOperationInfo d fuel = some (.ok opInfos) →
      ∃ libsand m namesAddr uuid off infoAddr dat,
        d.Image "libsandbox.1.dylib" = .ok libsand ∧ libsand.GetMacho = .ok m ∧
        m.FindSymbolAddress "_operation_names" = .ok namesAddr ∧
        d.GetOffset namesAddr = .ok (uuid, off) ∧
        m.FindSymbolAddress "_operation_info" = .ok infoAddr ∧
        d.ReadBytesForUUID uuid off ((infoAddr + U64 - namesAddr) % U64) = .ok dat ∧
        opInfos.length = dat.length / 8 ∧
        ∀ i, i < dat.length / 8 →
          ∃ oinfo, opInfos[i]? = some oinfo ∧
            d.GetCString (d.SlidePointer (leUint ((dat.drop (8 * i)).take 8)))
              = .ok oinfo.Name) := by
  refine ⟨?_, ?_⟩
  · intro addrs names
    constructor
    · intro h
      obtain ⟨new, hout, hlen, hitems⟩ := namesLoop_ok d addrs [] names h
      simp only [List.nil_append] at hout
      subst hout
      exact ⟨hlen, hitems⟩
    · rintro ⟨hlen, hitems⟩
      simpa using namesLoop_of_all d addrs names [] hlen hitems
  · intro opInfos h
    obtain ⟨libsand, m, namesAddr, uuid, off, infoAddr, dat, uuid2, off2, dat2,
      h1, h2, h3, h4, h5, h6, -, -, -, hlen, hitems⟩ := GetOperationInfo_spec d fuel opInfos h
    refine ⟨libsand, m, namesAddr, uuid, off, infoAddr, dat, h1, h2, h3, h4, h5, h6, hlen, ?_⟩
    intro i hi
    have hlt : i < opInfos.length := by omega
    refine ⟨opInfos[i], List.getElem?_eq_getElem hlt, ?_⟩
    exact (hitems i _ (List.getElem?_eq_getElem hlt)).2.1

/-! ## Short reads -/

/-- C18, as stated, fails: sixteen bytes are asked for the operation-names array of the
sample image; when the read returns eight, `GetOperationInfo` succeeds with one
operation instead of two. -/
theorem short_names_counterexample :
    sampleMacho.FindSymbolAddress "_operation_names" = .ok 0x14000 ∧
      sampleMacho.FindSymbolAddress "_operation_info" = .ok 0x14010 ∧
      (0x14010 + U64 - 0x14000) % U64 = 16 ∧
      shortNamesFile.ReadBytesForUUID 7 0x4000 16 = .ok (le64 0x130) ∧
      (le64 0x130).length = 8 ∧
      GetOperationInfo shortNamesFile 3 = some (.ok [sampleOperation0]) :=
  ⟨rfl, rfl, by decide, rfl, by decide, eq_of_okValue _ _ (by decide!)⟩

/-- C18, amended: when the buffer read for the filter table, for the modifier table, or
for the operation records holds fewer bytes than were asked for (`0x56 * 32`,
`0x15 * 32`, forty for each name read), the pipeline never returns a sequence of
records: whatever it returns is an error.  The operation-names array is not checked for
length: the number of operations is the number of whole pointers in the buffer that the
read returned. -/
theorem truncated_tables (d : DyldFile) (fuel : Nat) :
    (∀ libsand m addr uuid off dat,
      d.Image "libsandbox.1.dylib" = .ok libsand → libsand.GetMacho = .ok m →
      m.FindSymbolAddress "_filter_info" = .ok addr → d.GetOffset addr = .ok (uuid, off) →
      d.ReadBytesForUUID uuid off (0x56 * 32) = .ok dat → dat.length < 0x56 * 32 →
      ∀ finfos, GetFilterInfo d fuel ≠ some (.ok finfos)) ∧
    (∀ libsand m addr uuid off dat,
      d.Image "libsandbox.1.dylib" = .ok libsand → libsand.GetMacho = .ok m →
      m.FindSymbolAddress "_modifier_info" = .ok addr → d.GetOffset addr = .ok (uuid, off) →
      d.ReadBytesForUUID uuid off (0x15 * 32) = .ok dat → dat.length < 0x15 * 32 →
      ∀ minfos, GetModifierInfo d fuel ≠ some (.ok minfos)) ∧
    (∀ libsand m namesAddr uuid off infoAddr dat uuid2 off2 dat2,
      d.Image "libsandbox.1.dylib" = .ok libsand → libsand.GetMacho = .ok m →
      m.FindSymbolAddress "_operation_names" = .ok namesAddr →
      d.GetOffset namesAddr = .ok (uuid, off) →
      m.FindSymbolAddress "_operation_info" = .ok infoAddr →
      d.ReadBytesForUUID uuid off ((infoAddr + U64 - namesAddr) % U64) = .ok dat →
      d.GetOffset infoAddr = .ok (uuid2, off2) →
      d.ReadBytesForUUID uuid2 off2 (dat.length / 8 * 40) = .ok dat2 →
      dat2.length < dat.length / 8 * 40 →
      ∀ opInfos, GetOperationInfo d fuel ≠ some (.ok opInfos)) ∧
    (∀ opInfos, GetOperationInfo d fuel = some (.ok opInfos) →
      ∃ libsand m namesAddr uuid off infoAddr dat,
        d.Image "libsandbox.1.dylib" = .ok libsand ∧ libsand.GetMacho = .ok m ∧
        m.FindSymbolAddress "_operation_names" = .ok namesAddr ∧
        d.GetOffset namesAddr = .ok (uuid, off) ∧
        m.FindSymbolAddress "_operation_info" = .ok infoAddr ∧
        d.ReadBytesForUUID uuid off ((infoAddr + U64 - namesAddr) % U64) = .ok dat ∧
        opInfos.length = dat.length / 8) := by
  refine ⟨?_, ?_, ?_, ?_⟩
  · intro libsand m addr uuid off dat h1 h2 h3 h4 h5 hshort finfos hok
    have h5b : d.ReadBytesForUUID uuid off ((NUM_INFO_ENTRIES + 1) * sizeOfFilterInfo)
        = .ok dat := h5
    unfold GetFilterInfo at hok
    simp only [h1, h2, h3, h4, h5b] at hok
    obtain ⟨-, -, -, hlen, -⟩ := filterLoop_ok d fuel _ _ _ _ _ hok
    simp only [NUM_INFO_ENTRIES, sizeOfFilterInfo] at hlen
    omega
  · intro libsand m addr uuid off dat h1 h2 h3 h4 h5 hshort minfos hok
    have h5b : d.ReadBytesForUUID uuid off (SB_MODIFIER_COUNT * sizeOfModifierInfo)
        = .ok dat := h5
    unfold GetModifierInfo at hok
    simp only [h1, h2, h3, h4, h5b] at hok
    obtain ⟨-, -, -, hlen, -⟩ := modifierLoop_ok d fuel _ _ _ _ _ hok
    simp only [SB_MODIFIER_COUNT, sizeOfModifierInfo] at hlen
    omega
  · intro libsand m namesAddr uuid off infoAddr dat uuid2 off2 dat2 h1 h2 h3 h4 h5 h6 h7 h8
      hshort opInfos hok
    obtain ⟨libsand', m', namesAddr', uuid', off', infoAddr', dat', uuid2', off2', dat2',
      g1, g2, g3, g4, g5, g6, g7, g8, g9, g10, -⟩ := GetOperationInfo_spec d fuel opInfos hok
    rw [h1] at g1
    injection g1 with g1
    subst g1
    rw [h2] at g2
    injection g2 with g2
    subst g2
    rw [h3] at g3
    injection g3 with g3
    subst g3
    rw [h5] at g5
    injection g5 with g5
    subst g5
    rw [h4] at g4
    injection g4 with g4
    injection g4 with g4a g4b
    subst g4a g4b
    rw [h6] at g6
    injection g6 with g6
    subst g6
    rw [h7] at g7
    injection g7 with g7
    injection g7 with g7a g7b
    subst g7a g7b
    rw [g10, show dat.length / 8 * sizeOfOperationInfo = dat.length / 8 * 40 from rfl, h8] at g8
    injection g8 with g8
    subst g8
    rw [g10] at g9
    simp only [sizeOfOperationInfo] at g9
    omega
  · intro opInfos hok
    obtain ⟨libsand, m, namesAddr, uuid, off, infoAddr, dat, uuid2, off2, dat2,
      h1, h2, h3, h4, h5, h6, -, -, -, hlen, -⟩ := GetOperationInfo_spec d fuel opInfos hok
    exact ⟨libsand, m, namesAddr, uuid, off, infoAddr, dat, h1, h2, h3, h4, h5, h6, hlen⟩

/-! ## Loops without a bound -/

theorem onesFile_aliasAt (addr i : Nat) : (aliasAt onesFile addr i).isSome = true := by
  simp [aliasAt, aliasRecordAt, onesFile, readFull, sizeOfAlias]
  decide

theorem onesFile_stringAt (addr i : Nat) : (stringAt onesFile addr i).isSome = true := by
  simp [stringAt, onesFile]

theorem onesFile_filterItem (fuel i : Nat) (r : List Nat) (hlen : sizeOfFilterInfo ≤ r.length)
    (ha : fieldAt (r.take sizeOfFilterInfo) 24 8 ≠ 0) :
    filterItem onesFile fuel i r = none := by
  have hw : ∀ addr, filterAliasLoop onesFile addr fuel 0 [] = none := fun addr =>
    (filterAliasLoop_none_iff onesFile addr fuel).mpr (fun j _ => onesFile_aliasAt addr j)
  have ha2 : (decodeFilterInfo i (r.take sizeOfFilterInfo)).AliasesAddr ≠ 0 := ha
  unfold filterItem
  rw [readFull_of_le _ _ hlen]
  simp only [ha2, ne_eq, not_false_eq_true, if_true, hw]
  by_cases hN : (decodeFilterInfo i (r.take sizeOfFilterInfo)).NameAddr = 0 <;>
    by_cases hC : (decodeFilterInfo i (r.take sizeOfFilterInfo)).CategoryAddr = 0 <;>
    simp [hN, hC, onesFile]

theorem onesFile_modifierItem (fuel i : Nat) (r : List Nat)
    (hlen : sizeOfModifierInfo ≤ r.length)
    (ha : fieldAt (r.take sizeOfModifierInfo) 24 8 ≠ 0) :
    modifierItem onesFile fuel i r = none := by
  have hw : ∀ addr, modifierAliasLoop onesFile addr fuel 0 [] = none := fun addr => by
    rw [modifierAliasLoop_eq_filter]
    exact (filterAliasLoop_none_iff onesFile addr fuel).mpr
      (fun j _ => onesFile_aliasAt addr j)
  have ha2 : (decodeModifierInfo i (r.take sizeOfModifierInfo)).AliasesAddr ≠ 0 := ha
  unfold modifierItem
  rw [readFull_of_le _ _ hlen]
  simp only [ha2, ne_eq, not_false_eq_true, if_true, hw]
  by_cases hN : (decodeModifierInfo i (r.take sizeOfModifierInfo)).NameAddr = 0 <;>
    simp [hN, onesFile]

theorem filterLoop_none_first (d : DyldFile) (fuel k i : Nat) (r : List Nat)
    (acc : List FilterInfo) (h : filterItem d fuel i r = none) :
    filterLoop d fuel (k + 1) i r acc = none := by
  rw [filterLoop, h]

theorem modifierLoop_none_first (d : DyldFile) (fuel k i : Nat) (r : List Nat)
    (acc : List ModifierInfo) (h : modifierItem d fuel i r = none) :
    modifierLoop d fuel (k + 1) i r acc = none := by
  rw [modifierLoop, h]

/-- C19, as stated, fails: in an image where every address is mapped and no record or
slot is zero, every stored pointer is the non-zero `0x0101010101010101`, so the code
enters its walks; the alias walk of a filter, the alias walk of a modifier and the
pointer walk of an operation at that address have not returned after any number of
iterations, and neither have `GetFilterInfo`, `GetModifierInfo` and `GetOperationInfo`. -/
theorem no_hard_cap_counterexample :
    (decodeFilterInfo 0 (List.replicate 32 1)).AliasesAddr = 0x0101010101010101 ∧
      (∀ fuel, filterAliasLoop onesFile 0x0101010101010101 fuel 0 [] = none) ∧
      (∀ fuel, modifierAliasLoop onesFile 0x0101010101010101 fuel 0 [] = none) ∧
      (∀ fuel, sentinelLoop onesFile "category" 0x0101010101010101 fuel 0 [] = none) ∧
      (∀ fuel, GetFilterInfo onesFile fuel = none) ∧
      (∀ fuel, GetModifierInfo onesFile fuel = none) ∧
      (∀ fuel, GetOperationInfo onesFile fuel = none) := by
  refine ⟨by decide, ?_, ?_, ?_, ?_, ?_, ?_⟩
  · intro fuel
    exact (filterAliasLoop_none_iff onesFile _ fuel).mpr (fun i _ => onesFile_aliasAt _ i)
  · intro fuel
    rw [modifierAliasLoop_eq_filter]
    exact (filterAliasLoop_none_iff onesFile _ fuel).mpr (fun i _ => onesFile_aliasAt _ i)
  · intro fuel
    exact (sentinelLoop_none_iff onesFile "category" _ fuel).mpr
      (fun i _ => onesFile_stringAt _ i)
  · intro fuel
    have h : GetFilterInfo onesFile fuel
        = filterLoop onesFile fuel (NUM_INFO_ENTRIES + 1) 0
            (List.replicate ((NUM_INFO_ENTRIES + 1) * sizeOfFilterInfo) 1) [] := rfl
    rw [h]
    exact filterLoop_none_first onesFile fuel _ 0 _ [] (onesFile_filterItem fuel 0 _
      (by rw [List.length_replicate]; decide) (by decide))
  · intro fuel
    have h : GetModifierInfo onesFile fuel
        = modifierLoop onesFile fuel (20 + 1) 0
            (List.replicate (SB_MODIFIER_COUNT * sizeOfModifierInfo) 1) [] := rfl
    rw [h]
    exact modifierLoop_none_first onesFile fuel _ 0 _ [] (onesFile_modifierItem fuel 0 _
      (by rw [List.length_replicate]; decide) (by decide))
  · intro fuel
    have hw : sentinelLoop onesFile "category" 0x0101010101010101 fuel 0 [] = none :=
      (sentinelLoop_none_iff onesFile "category" _ fuel).mpr
        (fun i _ => onesFile_stringAt _ i)
    have h : GetOperationInfo onesFile fuel
        = operationLoop onesFile fuel ["x"]
            [decodeOperationInfo (List.replicate 40 1)] 0 [] := rfl
    have hc : (decodeOperationInfo (List.replicate 40 1)).CategoriesAddr
        = 0x0101010101010101 := by decide
    rw [h]
    simp only [operationLoop, operationItem, hc, hw]
    simp

/-- C19, amended: the walks have no cap on their iterations.  A walk has not returned
after `n` iterations exactly when each of the first `n` records (slots) is readable, is
not the terminator and has a readable string; it returns, with a result or an error, as
soon as a record (slot) is the zero terminator or cannot be read, and only then. -/
theorem walk_returns_iff (d : DyldFile) (addr n : Nat) :
    (filterAliasLoop d addr n 0 [] = none ↔ ∀ i, i < n → (aliasAt d addr i).isSome = true) ∧
    (modifierAliasLoop d addr n 0 [] = none ↔
      ∀ i, i < n → (aliasAt d addr i).isSome = true) ∧
    (∀ what : String, sentinelLoop d what addr n 0 [] = none ↔
      ∀ i, i < n → (stringAt d addr i).isSome = true) ∧
    (∀ k, k < n → aliasAt d addr k = none →
      (∃ r, filterAliasLoop d addr n 0 [] = some r) ∧
      (∃ r, modifierAliasLoop d addr n 0 [] = some r)) ∧
    (∀ (what : String) (k : Nat), k < n → stringAt d addr k = none →
      ∃ r, sentinelLoop d what addr n 0 [] = some r) := by
  have hf := filterAliasLoop_none_iff d addr n
  refine ⟨hf, by rw [modifierAliasLoop_eq_filter]; exact hf,
    fun what => sentinelLoop_none_iff d what addr n, ?_, ?_⟩
  · intro k hk hnone
    have hne : filterAliasLoop d addr n 0 [] ≠ none := by
      intro hn
      have := hf.mp hn k hk
      rw [hnone] at this
      cases this
    have hex : ∃ r, filterAliasLoop d addr n 0 [] = some r := by
      cases hr : filterAliasLoop d addr n 0 [] with
      | none => exact absurd hr hne
      | some r => exact ⟨r, rfl⟩
    exact ⟨hex, by rw [modifierAliasLoop_eq_filter]; exact hex⟩
  · intro what k hk hnone
    cases hr : sentinelLoop d what addr n 0 [] with
    | none =>
      have := (sentinelLoop_none_iff d what addr n).mp hr k hk
      rw [hnone] at this
      cases this
    | some r => exact ⟨r, rfl⟩

/-! ## The auxiliary attribute of an operation -/

/-- C20: for every operation record of a successful `GetOperationInfo`: when its
`UnknownAddr` is zero, `Unknown1` is 0, and nothing is read for it; when it is non-zero,
`slide(UnknownAddr)` is resolved, a buffer of four bytes per operation is read there, and
`Unknown1` is the little-endian value of the first four bytes of that buffer, whatever the
index of the operation, so that two records with the same `UnknownAddr` have the same
`Unknown1`.  When the location cannot be resolved or read, the block fails. -/
theorem unknown1_value (d : DyldFile) (fuel : Nat) (opInfos : List OperationInfo)
    (h : GetOperationInfo d fuel = some (.ok opInfos)) :
    (∀ oinfo ∈ opInfos,
      (oinfo.UnknownAddr = 0 → oinfo.Unknown1 = 0) ∧
      (oinfo.UnknownAddr ≠ 0 → ∃ uuid off dat,
        d.GetOffset (d.SlidePointer oinfo.UnknownAddr) = .ok (uuid, off) ∧
        d.ReadBytesForUUID uuid off (opInfos.length * 4) = .ok dat ∧ 4 ≤ dat.length ∧
        oinfo.Unknown1 = leUint (dat.take 4))) ∧
    (∀ o1 ∈ opInfos, ∀ o2 ∈ opInfos, o1.UnknownAddr = o2.UnknownAddr →
      o1.Unknown1 = o2.Unknown1) ∧
    (∀ (d2 : DyldFile) (count : Nat), readUnknown1 d2 count 0 = .ok 0) ∧
    (∀ (count addr : Nat), addr ≠ 0 →
      (∀ e, d.GetOffset (d.SlidePointer addr) = .error e →
        readUnknown1 d count addr
          = .error ("failed to get _operation_info unknown struct offset: " ++ e)) ∧
      (∀ uuid off e, d.GetOffset (d.SlidePointer addr) = .ok (uuid, off) →
        d.ReadBytesForUUID uuid off (count * 4) = .error e →
        readUnknown1 d count addr
          = .error ("failed to read _operation_info unknown struct data: " ++ e))) := by
  obtain ⟨-, -, -, -, -, -, dat, -, -, -, -, -, -, -, -, -, -, -, -, -, hitems⟩ :=
    GetOperationInfo_spec d fuel opInfos h
  have hread : ∀ oinfo ∈ opInfos,
      readUnknown1 d opInfos.length oinfo.UnknownAddr = .ok oinfo.Unknown1 := by
    intro oinfo hmem
    obtain ⟨i, hi⟩ := mem_getElem? opInfos oinfo hmem
    obtain ⟨-, -, oi, hitem⟩ := hitems i oinfo hi
    have := (operationItem_ok d fuel _ i oi oinfo hitem).2.2.2.2.2.2.2.2.2.2.2.2
    rwa [List.length_map] at this
  refine ⟨?_, ?_, ?_, ?_⟩
  · intro oinfo hmem
    exact readUnknown1_ok d _ _ _ (hread oinfo hmem)
  · intro o1 h1 o2 h2 heq
    have r1 := hread o1 h1
    have r2 := hread o2 h2
    rw [heq, r2] at r1
    injection r1 with r1
    exact r1.symm
  · intro d2 count
    simp [readUnknown1]
  · intro count addr hne
    refine ⟨?_, ?_⟩
    · intro e he
      simp only [readUnknown1, hne, ne_eq, not_false_eq_true, if_true, he]
    · intro uuid off e ho hr
      simp only [readUnknown1, hne, ne_eq, not_false_eq_true, if_true, ho, hr]

/-- In the sample image the first operation has `UnknownAddr = 0x7000` and `Unknown1 = 5`,
the second has neither. -/
theorem unknown1_value_witness :
    GetOperationInfo sampleFile 3 = some (.ok [sampleOperation0, sampleOperation1]) ∧
      ∀ oinfo ∈ [sampleOperation0, sampleOperation1],
        (oinfo.UnknownAddr = 0 → oinfo.Unknown1 = 0) ∧
        (oinfo.UnknownAddr ≠ 0 → ∃ uuid off dat,
          sampleFile.GetOffset (sampleFile.SlidePointer oinfo.UnknownAddr) = .ok (uuid, off) ∧
          sampleFile.ReadBytesForUUID uuid off ([sampleOperation0, sampleOperation1].length * 4)
            = .ok dat ∧ 4 ≤ dat.length ∧ oinfo.Unknown1 = leUint (dat.take 4)) :=
  ⟨eq_of_okValue _ _ (by decide!),
    (unknown1_value sampleFile 3 [sampleOperation0, sampleOperation1]
      (eq_of_okValue _ _ (by decide!))).1⟩

/-! ## The amended statements on the sample image -/

/-- The names loop on the two pointers of the sample image gives their two strings. -/
theorem names_table_flat_witness :
    namesLoop sampleFile [0x130, 0x138] [] = .ok ["default", "file-read"] :=
  ((names_table_flat sampleFile 3).1 [0x130, 0x138] ["default", "file-read"]).mpr
    ⟨rfl, by
      intro j a hj
      match j, hj with
      | 0, hj =>
        simp only [List.getElem?_cons_zero, Option.some.injEq] at hj
        subst hj
        exact ⟨"default", rfl, rfl⟩
      | 1, hj =>
        simp only [List.getElem?_cons_succ, List.getElem?_cons_zero, Option.some.injEq] at hj
        subst hj
        exact ⟨"file-read", rfl, rfl⟩
      | j + 2, hj => simp at hj⟩

/-- When the read of the filter table of the sample image returns forty bytes,
`GetFilterInfo` fails at the second record. -/
theorem truncated_tables_witness :
    GetFilterInfo shortFilterFile 3
        = some (.error "failed to read _filter_info item 1: unexpected EOF") ∧
      ∀ finfos, GetFilterInfo shortFilterFile 3 ≠ some (.ok finfos) :=
  ⟨rfl, (truncated_tables shortFilterFile 3).1 _ sampleMacho 0x11000 7 0x1000
    ((sampleRead 0x1000 (0x56 * 32)).take 40) rfl rfl rfl rfl rfl (by decide)⟩

/-- The alias walk at `0x5000` of the sample image has not returned after two iterations
and returns at the third, on the terminator. -/
theorem walk_returns_iff_witness :
    filterAliasLoop sampleFile 0x5000 2 0 [] = none ∧
      ∃ r, filterAliasLoop sampleFile 0x5000 3 0 [] = some r :=
  ⟨(walk_returns_iff sampleFile 0x5000 2).1.mpr (by
      intro i hi
      match i, hi with
      | 0, _ => decide
      | 1, _ => decide
      | i + 2, hi => omega),
    ((walk_returns_iff sampleFile 0x5000 3).2.2.2.1 2 (by decide) (by decide)).1⟩

/-! ## The two copies of the alias walk -/

theorem filterAliasLoop_fail_fixed (d : DyldFile) (aliasesAddr i : Nat)
    (hi : aliasAt d aliasesAddr i = none) (ht : terminatorAt d aliasesAddr i = false) :
    ∃ e, ∀ fuel acc,
      filterAliasLoop d aliasesAddr (fuel + 1) (sizeOfAlias * i % U64) acc = some (.error e) := by
  simp only [aliasAt, terminatorAt, aliasRecordAt] at hi ht
  have hA : (d.SlidePointer aliasesAddr + sizeOfAlias * i % U64) % U64
      = aliasSlot d aliasesAddr i := rfl
  cases h1 : d.GetOffset (aliasSlot d aliasesAddr i) with
  | error e =>
    refine ⟨"failed to get alias offset for addr " ++ fmtHex (aliasSlot d aliasesAddr i)
      ++ ": " ++ e, fun fuel acc => ?_⟩
    simp only [filterAliasLoop]
    rw [hA, h1]
  | ok p =>
    obtain ⟨uuid, off⟩ := p
    simp only [h1] at hi ht
    cases h2 : d.ReadBytesForUUID uuid off sizeOfAlias with
    | error e =>
      refine ⟨"failed to read alias data: " ++ e, fun fuel acc => ?_⟩
      simp only [filterAliasLoop]
      rw [hA, h1]
      simp only [h2]
    | ok dat =>
      simp only [h2] at hi ht
      cases h3 : readFull dat sizeOfAlias with
      | error e =>
        refine ⟨"failed to read alias: " ++ e, fun fuel acc => ?_⟩
        simp only [filterAliasLoop]
        rw [hA, h1]
        simp only [h2, h3]
      | ok q =>
        obtain ⟨bs, rest⟩ := q
        simp only [h3, decide_eq_false_iff_not] at hi ht
        simp only [ht, if_false] at hi
        cases h5 : d.GetCString (d.SlidePointer (decodeAlias bs).NameAddr) with
        | error e =>
          refine ⟨"failed to read alias name: " ++ e, fun fuel acc => ?_⟩
          simp only [filterAliasLoop]
          rw [hA, h1]
          simp only [h2, h3, ht, if_false, h5]
        | ok name => simp [h5] at hi

theorem filterAliasLoop_mono (d : DyldFile) (aliasesAddr : Nat) :
    ∀ fuel i acc r,
      filterAliasLoop d aliasesAddr fuel (sizeOfAlias * i % U64) acc = some r →
      filterAliasLoop d aliasesAddr (fuel + 1) (sizeOfAlias * i % U64) acc = some r := by
  have c := filterAliasLoop_chain d aliasesAddr
  intro fuel
  induction fuel with
  | zero =>
    intro i acc r h
    have := c.zero i acc
    simp only at this
    rw [this] at h
    cases h
  | succ fuel ih =>
    intro i acc r h
    cases hi : aliasAt d aliasesAddr i with
    | some b =>
      have s1 := c.step fuel i acc b hi
      have s2 := c.step (fuel + 1) i acc b hi
      simp only at s1 s2
      rw [s1] at h
      rw [s2]
      exact ih (i + 1) (acc ++ [b]) r h
    | none =>
      cases ht : terminatorAt d aliasesAddr i with
      | true =>
        have s1 := c.stop fuel i acc ht
        have s2 := c.stop (fuel + 1) i acc ht
        simp only at s1 s2
        rw [s1] at h
        rw [s2, ← h]
      | false =>
        obtain ⟨e, he⟩ := filterAliasLoop_fail_fixed d aliasesAddr i hi ht
        rw [he fuel acc] at h
        rw [he (fuel + 1) acc, ← h]

theorem filterAliasLoop_mono_le (d : DyldFile) (aliasesAddr n m : Nat)
    (r : Except String Aliases) (hnm : n ≤ m)
    (h : filterAliasLoop d aliasesAddr n 0 [] = some r) :
    filterAliasLoop d aliasesAddr m 0 [] = some r := by
  induction m with
  | zero =>
    have h0 : n = 0 := by omega
    subst h0
    exact h
  | succ m ih =>
    by_cases hn : n = m + 1
    · subst hn
      exact h
    · have hm := ih (by omega)
      have := filterAliasLoop_mono d aliasesAddr m 0 [] r
      simp only [Nat.mul_zero, Nat.zero_mod] at this
      exact this hm

/-- C21: the alias walk written out in `GetFilterInfo` and the one written out in
`GetModifierInfo` are the same function.  For every image and alias pointer the two
loops give the same outcome after every number of iterations (the same alias sequence,
the same error, or neither has returned); when both return, whatever the numbers of
iterations allowed, they return the same result; one returns if and only if the other
does; and a filter record and a modifier record built from the same image with the same
`AliasesAddr` hold the same `Aliases`. -/
theorem alias_walks_agree (d : DyldFile) (aliasesAddr : Nat) :
    (∀ fuel next acc,
      modifierAliasLoop d aliasesAddr fuel next acc
        = filterAliasLoop d aliasesAddr fuel next acc) ∧
    (∀ n m r1 r2, filterAliasLoop d aliasesAddr n 0 [] = some r1 →
      modifierAliasLoop d aliasesAddr m 0 [] = some r2 → r1 = r2) ∧
    ((∃ n r, filterAliasLoop d aliasesAddr n 0 [] = some r) ↔
      (∃ m r, modifierAliasLoop d aliasesAddr m 0 [] = some r)) ∧
    (∀ (n m i j : Nat) (r1 r2 rest1 rest2 : List Nat) (fi : FilterInfo) (mi : ModifierInfo),
      filterItem d n i r1 = some (.ok (fi, rest1)) →
      modifierItem d m j r2 = some (.ok (mi, rest2)) →
      fi.AliasesAddr = aliasesAddr → mi.AliasesAddr = aliasesAddr →
      fi.Aliases = mi.Aliases) := by
  have hagree : ∀ n m r1 r2, filterAliasLoop d aliasesAddr n 0 [] = some r1 →
      modifierAliasLoop d aliasesAddr m 0 [] = some r2 → r1 = r2 := by
    intro n m r1 r2 h1 h2
    rw [modifierAliasLoop_eq_filter] at h2
    have e1 := filterAliasLoop_mono_le d aliasesAddr n (max n m) r1 (Nat.le_max_left n m) h1
    have e2 := filterAliasLoop_mono_le d aliasesAddr m (max n m) r2 (Nat.le_max_right n m) h2
    rw [e1] at e2
    injection e2
  refine ⟨modifierAliasLoop_eq_filter d aliasesAddr, hagree, ?_, ?_⟩
  · constructor
    · rintro ⟨n, r, h⟩
      exact ⟨n, r, by rw [modifierAliasLoop_eq_filter]; exact h⟩
    · rintro ⟨m, r, h⟩
      exact ⟨m, r, by rw [← modifierAliasLoop_eq_filter]; exact h⟩
  · intro n m i j r1 r2 rest1 rest2 fi mi hf hm hfa hma
    obtain ⟨-, -, -, -, -, -, -, hfz, hfn⟩ := filterItem_ok d n i r1 fi rest1 hf
    obtain ⟨-, -, -, -, -, hmz, hmn⟩ := modifierItem_ok d m j r2 mi rest2 hm
    by_cases h0 : aliasesAddr = 0
    · rw [hfz (by rw [hfa, h0]), hmz (by rw [hma, h0])]
    · have w1 := hfn (by rw [hfa]; exact h0)
      have w2 := hmn (by rw [hma]; exact h0)
      rw [hfa] at w1
      rw [hma] at w2
      have := hagree n m _ _ w1 w2
      injection this

/-- In the sample image the two walks of the chain at `0x5000` both give "root" and
"wheel", and the two walks of the bytes at `0x1000` both fail on an unreadable name. -/
theorem alias_walks_agree_witness :
    filterAliasLoop sampleFile 0x5000 3 0 [] = some (.ok sampleAliases) ∧
      modifierAliasLoop sampleFile 0x5000 3 0 [] = some (.ok sampleAliases) ∧
      filterAliasLoop sampleFile 0x1000 3 0 []
        = some (.error "failed to read alias name: no string") ∧
      modifierAliasLoop sampleFile 0x1000 3 0 []
        = filterAliasLoop sampleFile 0x1000 3 0 [] :=
  ⟨eq_of_okValue _ _ (by decide), eq_of_okValue _ _ (by decide), rfl,
    (alias_walks_agree sampleFile 0x1000).1 3 0 []⟩

end Ipsw
